import Mathlib

/-!
Verification development for the festivalportalen repository.

The development shallowly embeds the accounting/aggregation core, the CSV
export layer and the TicketCo sync job of the repository into Lean:

* `SalesUtils` — src/src/lib/sales-utils.ts
* `UseTicketSales` — src/src/hooks/useTicketSales.ts (CSV export + VAT helpers)
* `ExportCsvLib` — src/src/lib/export-csv.ts
* `ReportPdf` — the annual-report PDF generator (economy section)
* `TicketcoSync` — src/supabase/functions/ticketco-sync/index.ts

Modelling conventions: JS numbers are modelled as `ℚ` (the monetary values and
VAT rates in all claims are exactly representable, so rational arithmetic
agrees with the source's float arithmetic on them); JS `null`/optional fields
become `Option`; JS string operations are re-implemented structurally over
`List Char` so that all definitions evaluate by kernel reduction; a JS `Map`
(insertion-ordered, unique keys) is modelled as an insertion-ordered list with
unique keys; `Array.prototype.sort` with a comparator is modelled as insertion
sort by the comparator's order.
-/

namespace Festivalportalen

/-! ## Data model (src/types/database row shapes, as used by the core) -/

/-- One row of the `ticket_sales` ledger: a single order line of a ticket or
food/beverage sale. -/
structure TicketSale where
  festival_id : String
  ticketco_id : String
  ticket_type : String
  category : String
  quantity : ℚ
  price_ex_vat : Option ℚ
  vat_rate : Option ℚ
  vat_amount : Option ℚ
  price_inc_vat : Option ℚ
  sale_channel : Option String
  sold_at : Option String
  synced_at : Option String
deriving Repr, DecidableEq

/-- One `income` row. -/
structure Income where
  category : String
  description : Option String
  amount_ex_vat : Option ℚ
  vat_rate : Option ℚ
  vat_amount : Option ℚ
  source : Option String
  is_budget : Bool
  date : Option String
deriving Repr, DecidableEq

/-- One `expenses` row. -/
structure Expense where
  category : String
  description : Option String
  amount_ex_vat : Option ℚ
  vat_rate : Option ℚ
  vat_amount : Option ℚ
  supplier : Option String
  is_budget : Bool
  date : Option String
deriving Repr, DecidableEq

/-! ## Kernel-friendly string primitives

Core `String` functions (`String.contains`, `String.replace`,
`String.toLower`, …) do not reduce in the kernel, so the JS string operations
used by the source are re-implemented structurally over `List Char`. -/

/-- Does the character list `sub` occur as a prefix of `l`?  Models the prefix
test underlying `String.prototype.includes`. -/
def hasPfx : List Char → List Char → Bool
  | [], _ => true
  | _ :: _, [] => false
  | a :: as, b :: bs => a == b && hasPfx as bs

/-- Does `sub` occur as a contiguous substring of `l`?  Models
`String.prototype.includes(sub)` (on the underlying character lists). -/
def hasSub (sub : List Char) : List Char → Bool
  | [] => sub.isEmpty
  | c :: rest => hasPfx sub (c :: rest) || hasSub sub rest

/-- JS `hay.includes(needle)` for strings. -/
def jsIncludes (hay needle : String) : Bool :=
  hasSub needle.data hay.data

/-- JS `s.includes(c)` for a single character. -/
def containsChar (s : String) (c : Char) : Bool :=
  s.data.any (fun d => d == c)

/-- JS `s.toLowerCase()` (ASCII case folding, as `Char.toLower`). -/
def jsToLower (s : String) : String :=
  String.mk (s.data.map Char.toLower)

/-- JS `s.replace(/"/g, String.fromCharCode(34, 34))`: double every double
quote in a character list. -/
def doubleQuotes : List Char → List Char
  | [] => []
  | c :: rest => if c == '"' then '"' :: '"' :: doubleQuotes rest else c :: doubleQuotes rest

/-- Lexicographic comparison of character lists (the order in which
`String.prototype.localeCompare` compares pure ASCII digit/hyphen strings such
as ISO dates). -/
def chLe : List Char → List Char → Bool
  | [], _ => true
  | _ :: _, [] => false
  | a :: as, b :: bs => if a = b then chLe as bs else decide (a < b)

/-- String comparison used when sorting date keys. -/
def strLe (a b : String) : Bool :=
  chLe a.data b.data

/-- JS falsiness of an optional string (`null`/`undefined` and the empty
string are falsy). -/
def jsFalsyStr : Option String → Bool
  | none => true
  | some s => s == ""

/-! ## CSV field escaping (claim C1)

Two distinct `escapeCsv` functions exist in the repository: the one in
src/src/hooks/useTicketSales.ts applies a spreadsheet-formula-injection guard
before the quoting rule; the one in src/src/lib/export-csv.ts (used by the
sales CSV export wired to the sales page) applies only the quoting rule. -/

namespace UseTicketSales

/-- The character class of the guard regex `/^[=+\-@\t\r]/`. -/
def formulaRiskChars : List Char := ['=', '+', '-', '@', '\t', '\r']

/-- Does `/^[=+\-@\t\r]/` match `val`? -/
def needsFormulaGuard (val : String) : Bool :=
  match val.data with
  | [] => false
  | c :: _ => formulaRiskChars.contains c

/-- Embedding of `escapeCsv` from src/src/hooks/useTicketSales.ts: prefix a
single quote when the value starts with a formula-risk character, then apply
the CSV quoting rule. -/
def escapeCsv (val : String) : String :=
  let safe := if needsFormulaGuard val then "\x27" ++ val else val
  if containsChar safe ',' || containsChar safe '"' || containsChar safe '\n' then
    String.mk ('"' :: (doubleQuotes safe.data ++ ['"']))
  else safe

end UseTicketSales

namespace ExportCsvLib

/-- Embedding of `escapeCsv` from src/src/lib/export-csv.ts: only the CSV
quoting rule, with no formula-injection guard. -/
def escapeCsv (val : String) : String :=
  if containsChar val ',' || containsChar val '"' || containsChar val '\n' then
    String.mk ('"' :: (doubleQuotes val.data ++ ['"']))
  else val

end ExportCsvLib

/-- Helper for stating C1: the quoting-only step shared by both escapers. -/
def quoteStep (safe : String) : String :=
  if containsChar safe ',' || containsChar safe '"' || containsChar safe '\n' then
    String.mk ('"' :: (doubleQuotes safe.data ++ ['"']))
  else safe

/-- The hooks-file escaper is exactly guard-then-quote. -/
theorem escapeCsv_eq_quoteStep_guard (val : String) :
    UseTicketSales.escapeCsv val
      = quoteStep (if UseTicketSales.needsFormulaGuard val then "\x27" ++ val else val) := by
  unfold UseTicketSales.escapeCsv quoteStep
  rfl

/-- C1: the spec requires every CSV exporter to prefix a single quote to any
field value starting with `=`, `+`, `-`, `@`, tab or CR before the normal
quoting rule.  The `escapeCsv` in src/src/lib/export-csv.ts (used by the sales
CSV export) renders `=SUM(A1:A9)` unchanged, with no leading quote, while the
guarded `escapeCsv` in src/src/hooks/useTicketSales.ts renders it as the spec
demands — the library copy contradicts the documented guard. -/
theorem c1_csv_injection_guard :
    ExportCsvLib.escapeCsv "=SUM(A1:A9)" = "=SUM(A1:A9)"
      ∧ UseTicketSales.escapeCsv "=SUM(A1:A9)" = "\x27=SUM(A1:A9)"
      ∧ "=SUM(A1:A9)" ≠ "\x27=SUM(A1:A9)" :=
  ⟨by decide, by decide, by decide⟩

/-! ## Generic insertion-ordered group-by

The aggregators in sales-utils.ts and useTicketSales.ts all follow the same JS
idiom: iterate over the records, look the record's key up in a `Map`
(falling back to a fresh group), add the record into the group, and store it
back.  A JS `Map` keeps insertion order and unique keys, so the accumulator is
modelled as an insertion-ordered list of groups with pairwise distinct keys. -/

section GroupBy

variable {α β κ : Type} [DecidableEq κ]

/-- One step of the grouping loop: update the existing group in place, or
append a fresh group (JS `map.get(k) ?? init` followed by `map.set(k, …)`). -/
def groupStep (key : α → κ) (keyOf : β → κ) (init : κ → β) (upd : α → β → β)
    (acc : List β) (a : α) : List β :=
  if acc.any (fun b => keyOf b == key a) then
    acc.map (fun b => if keyOf b == key a then upd a b else b)
  else
    acc ++ [upd a (init (key a))]

/-- The grouping loop over a whole collection. -/
def groupFold (key : α → κ) (keyOf : β → κ) (init : κ → β) (upd : α → β → β)
    (l : List α) : List β :=
  l.foldl (groupStep key keyOf init upd) []

/-- The group value a key must end up with: all records carrying that key,
folded into the fresh group. -/
def canonGroup (key : α → κ) (init : κ → β) (upd : α → β → β) (k : κ) (l : List α) : β :=
  (l.filter (fun a => key a == k)).foldl (fun b a => upd a b) (init k)

/-- `find?` commutes with mapping a function that does not change the
predicate's verdict. -/
theorem find?_map_pres (p : β → Bool) (f : β → β) (hf : ∀ b, p (f b) = p b) :
    ∀ l : List β, (l.map f).find? p = (l.find? p).map f
  | [] => rfl
  | b :: l => by
    rw [List.map_cons]
    cases hp : p b with
    | true =>
      rw [List.find?_cons_of_pos _ (by rw [hf]; exact hp), List.find?_cons_of_pos _ hp]
      rfl
    | false =>
      rw [List.find?_cons_of_neg, List.find?_cons_of_neg]
      · exact find?_map_pres p f hf l
      · simp [hp]
      · simp [hf, hp]

variable (key : α → κ) (keyOf : β → κ) (init : κ → β) (upd : α → β → β)

/-- In a group list with pairwise distinct keys, `find?` by an element's key
returns exactly that element. -/
theorem find?_eq_of_mem_of_nodupKeys (G : List β) (hnd : (G.map keyOf).Nodup)
    (b : β) (hb : b ∈ G) : G.find? (fun x => keyOf x == keyOf b) = some b := by
  induction G with
  | nil => cases hb
  | cons c G ih =>
    rw [List.map_cons, List.nodup_cons] at hnd
    rcases List.mem_cons.mp hb with rfl | hbG
    · exact List.find?_cons_of_pos _ (beq_self_eq_true _)
    · have hne : keyOf c ≠ keyOf b := by
        intro he
        exact hnd.1 (he ▸ List.mem_map_of_mem keyOf hbG)
      rw [List.find?_cons_of_neg]
      · exact ih hnd.2 hbG
      · simp [hne]

/-- Folding updates into a group never changes its key. -/
theorem keyOf_foldl_upd (hupd : ∀ a b, keyOf (upd a b) = keyOf b) (l : List α) (b : β) :
    keyOf (l.foldl (fun b a => upd a b) b) = keyOf b := by
  induction l generalizing b with
  | nil => rfl
  | cons a l ih => rw [List.foldl_cons, ih, hupd]

/-- The canonical group for `k` carries key `k`. -/
theorem keyOf_canonGroup (hinit : ∀ k, keyOf (init k) = k)
    (hupd : ∀ a b, keyOf (upd a b) = keyOf b) (k : κ) (l : List α) :
    keyOf (canonGroup key init upd k l) = k := by
  rw [canonGroup, keyOf_foldl_upd keyOf upd hupd, hinit]

/-- Master lemma for the grouping loop: the resulting group list has pairwise
distinct keys, its key set is exactly the key set of the input, and looking a
key up returns the canonical fold of the records carrying that key. -/
theorem groupFold_spec (hinit : ∀ k, keyOf (init k) = k)
    (hupd : ∀ a b, keyOf (upd a b) = keyOf b) (l : List α) :
    ((groupFold key keyOf init upd l).map keyOf).Nodup
      ∧ (∀ k, k ∈ (groupFold key keyOf init upd l).map keyOf ↔ k ∈ l.map key)
      ∧ (∀ k, k ∈ l.map key →
          (groupFold key keyOf init upd l).find? (fun b => keyOf b == k)
            = some (canonGroup key init upd k l))
      ∧ (∀ k, k ∉ l.map key →
          (groupFold key keyOf init upd l).find? (fun b => keyOf b == k) = none) := by
  induction l using List.reverseRecOn with
  | nil =>
    refine ⟨by simp [groupFold], by simp [groupFold], ?_, by simp [groupFold]⟩
    intro k hk
    simp at hk
  | append_singleton l a ih =>
    obtain ⟨ihnd, ihmem, ihfind, ihnone⟩ := ih
    have hGF : groupFold key keyOf init upd (l ++ [a])
        = groupStep key keyOf init upd (groupFold key keyOf init upd l) a := by
      simp [groupFold, List.foldl_append]
    set G := groupFold key keyOf init upd l with hG
    have hkeysapp : (l ++ [a]).map key = l.map key ++ [key a] := by simp
    by_cases hmem : key a ∈ l.map key
    · -- the key already has a group: in-place update
      have hany : G.any (fun b => keyOf b == key a) = true := by
        rw [List.any_eq_true]
        obtain ⟨b, hb, hkb⟩ := List.mem_map.mp ((ihmem (key a)).mpr hmem)
        exact ⟨b, hb, by rw [hkb, beq_self_eq_true]⟩
      have hstep : groupStep key keyOf init upd G a
          = G.map (fun b => if keyOf b == key a then upd a b else b) := by
        simp only [groupStep, hany, if_true]
      have hpres : ∀ b, keyOf (if keyOf b == key a then upd a b else b) = keyOf b := by
        intro b
        by_cases hb : (keyOf b == key a) = true
        · rw [if_pos hb, hupd]
        · rw [if_neg hb]
      have hkeys : (G.map (fun b => if keyOf b == key a then upd a b else b)).map keyOf
          = G.map keyOf := by
        rw [List.map_map]
        exact List.map_congr_left (fun b _ => hpres b)
      rw [hGF, hstep]
      refine ⟨by rw [hkeys]; exact ihnd, ?_, ?_, ?_⟩
      · intro k
        rw [hkeys, hkeysapp, List.mem_append, ihmem k]
        constructor
        · exact fun h => Or.inl h
        · rintro (h | h)
          · exact h
          · simp only [List.mem_singleton] at h
            exact h ▸ hmem
      · intro k hk
        have hfmap := find?_map_pres (fun b => keyOf b == k)
          (fun b => if keyOf b == key a then upd a b else b)
          (fun b => congrArg (fun x => x == k) (hpres b)) G
        by_cases hka : k = key a
        · rcases hka with rfl
          rw [hfmap, ihfind (key a) hmem]
          have hcan : canonGroup key init upd (key a) (l ++ [a])
              = upd a (canonGroup key init upd (key a) l) := by
            simp [canonGroup, List.filter_append, List.foldl_append]
          have htrue : (keyOf (canonGroup key init upd (key a) l) == key a) = true := by
            rw [keyOf_canonGroup key keyOf init upd hinit hupd, beq_self_eq_true]
          rw [hcan]
          exact congrArg some (if_pos htrue)
        · have hkl : k ∈ l.map key := by
            rw [hkeysapp, List.mem_append] at hk
            rcases hk with h | h
            · exact h
            · simp only [List.mem_singleton] at h
              exact absurd h hka
          have hfilt : (key a == k) = false := by
            simp only [beq_eq_false_iff_ne, ne_eq]
            exact fun h => hka h.symm
          have hcan : canonGroup key init upd k (l ++ [a]) = canonGroup key init upd k l := by
            simp [canonGroup, List.filter_append, hfilt]
          have hfalse : (keyOf (canonGroup key init upd k l) == key a) = false := by
            rw [keyOf_canonGroup key keyOf init upd hinit hupd]
            simp only [beq_eq_false_iff_ne, ne_eq]
            exact fun h => hka h
          rw [hfmap, ihfind k hkl, hcan]
          exact congrArg some (if_neg (by rw [hfalse]; exact Bool.false_ne_true))
      · intro k hk
        rw [hkeysapp] at hk
        simp only [List.mem_append, List.mem_singleton, not_or] at hk
        have hfmap := find?_map_pres (fun b => keyOf b == k)
          (fun b => if keyOf b == key a then upd a b else b)
          (fun b => congrArg (fun x => x == k) (hpres b)) G
        rw [hfmap, ihnone k hk.1]
        rfl
    · -- fresh key: append a new group
      have hany : G.any (fun b => keyOf b == key a) = false := by
        rw [Bool.eq_false_iff, ne_eq, List.any_eq_true]
        rintro ⟨b, hb, hkb⟩
        exact hmem ((ihmem (key a)).mp (eq_of_beq hkb ▸ List.mem_map_of_mem keyOf hb))
      have hstep : groupStep key keyOf init upd G a = G ++ [upd a (init (key a))] := by
        simp only [groupStep, hany, Bool.false_eq_true, if_false]
      have hknew : keyOf (upd a (init (key a))) = key a := by rw [hupd, hinit]
      rw [hGF, hstep]
      have hkeys : (G ++ [upd a (init (key a))]).map keyOf = G.map keyOf ++ [key a] := by
        rw [List.map_append, List.map_singleton, hknew]
      refine ⟨?_, ?_, ?_, ?_⟩
      · rw [hkeys, List.nodup_append]
        refine ⟨ihnd, List.nodup_singleton _, ?_⟩
        intro k hkG hk1
        simp only [List.mem_singleton] at hk1
        rcases hk1 with rfl
        exact hmem ((ihmem _).mp hkG)
      · intro k
        rw [hkeys, hkeysapp, List.mem_append, List.mem_append, ihmem k]
      · intro k hk
        rw [List.find?_append]
        by_cases hka : k = key a
        · rcases hka with rfl
          rw [ihnone (key a) hmem, Option.none_or]
          have hfilt : l.filter (fun x => key x == key a) = [] := by
            rw [List.filter_eq_nil_iff]
            intro x hx hkx
            exact hmem (eq_of_beq hkx ▸ List.mem_map_of_mem key hx)
          have hcan : canonGroup key init upd (key a) (l ++ [a])
              = upd a (init (key a)) := by
            simp [canonGroup, List.filter_append, hfilt]
          rw [hcan, List.find?_cons_of_pos _ (by rw [hknew, beq_self_eq_true])]
        · have hkl : k ∈ l.map key := by
            rw [hkeysapp, List.mem_append] at hk
            rcases hk with h | h
            · exact h
            · simp only [List.mem_singleton] at h
              exact absurd h hka
          have hfilt : (key a == k) = false := by
            simp only [beq_eq_false_iff_ne, ne_eq]
            exact fun h => hka h.symm
          have hcan : canonGroup key init upd k (l ++ [a]) = canonGroup key init upd k l := by
            simp [canonGroup, List.filter_append, hfilt]
          rw [ihfind k hkl, hcan]
          rfl
      · intro k hk
        rw [hkeysapp] at hk
        simp only [List.mem_append, List.mem_singleton, not_or] at hk
        rw [List.find?_append, ihnone k hk.1, Option.none_or]
        rw [List.find?_cons_of_neg]
        · rfl
        · intro hcontra
          rw [hknew] at hcontra
          exact hk.2 (eq_of_beq hcontra).symm

/-- Membership characterisation of the grouping loop: the groups are exactly
the canonical folds of the keys occurring in the input. -/
theorem mem_groupFold_iff (hinit : ∀ k, keyOf (init k) = k)
    (hupd : ∀ a b, keyOf (upd a b) = keyOf b) (l : List α) (b : β) :
    b ∈ groupFold key keyOf init upd l
      ↔ keyOf b ∈ l.map key ∧ b = canonGroup key init upd (keyOf b) l := by
  obtain ⟨hnd, hmem, hfind, _⟩ := groupFold_spec key keyOf init upd hinit hupd l
  constructor
  · intro hb
    have hk : keyOf b ∈ l.map key := (hmem (keyOf b)).mp (List.mem_map_of_mem keyOf hb)
    have h1 := hfind (keyOf b) hk
    have h2 := find?_eq_of_mem_of_nodupKeys keyOf _ hnd b hb
    rw [h1] at h2
    exact ⟨hk, (Option.some.inj h2).symm⟩
  · rintro ⟨hk, hbc⟩
    have hf := hfind (keyOf b) hk
    rw [← hbc] at hf
    exact List.mem_of_find?_eq_some hf

end GroupBy


/-- Folding `s + g x` over a list equals the starting value plus the sum of
the mapped values (used to read off totals from `reduce`-style loops). -/
theorem foldl_add_field {α : Type} (g : α → ℚ) (l : List α) (c : ℚ) :
    l.foldl (fun s x => s + g x) c = c + (l.map g).sum := by
  induction l generalizing c with
  | nil => simp
  | cons x l ih => simp [ih, add_assoc]

/-- Totality of the lexicographic character-list comparison. -/
theorem chLe_total : ∀ as bs : List Char, chLe as bs = true ∨ chLe bs as = true
  | [], _ => Or.inl rfl
  | _ :: _, [] => Or.inr rfl
  | a :: as, b :: bs => by
    by_cases hab : a = b
    · subst hab
      rcases chLe_total as bs with h | h
      · exact Or.inl (by simp [chLe, h])
      · exact Or.inr (by simp [chLe, h])
    · rcases lt_or_gt_of_ne hab with h | h
      · exact Or.inl (by simp [chLe, hab, h])
      · exact Or.inr (by simp [chLe, Ne.symm hab, h])

/-- Transitivity of the lexicographic character-list comparison. -/
theorem chLe_trans :
    ∀ as bs cs : List Char, chLe as bs = true → chLe bs cs = true → chLe as cs = true
  | [], _, _ => by intro _ _; rfl
  | a :: as, [], cs => by intro h _; simp [chLe] at h
  | a :: as, b :: bs, [] => by intro _ h; simp [chLe] at h
  | a :: as, b :: bs, c :: cs => by
    intro h1 h2
    by_cases hab : a = b <;> by_cases hbc : b = c
    · subst hab; subst hbc
      simp only [chLe, if_pos rfl] at h1 h2 ⊢
      exact chLe_trans as bs cs h1 h2
    · subst hab
      simp only [chLe, if_pos rfl, if_neg hbc] at h2 ⊢
      exact h2
    · subst hbc
      simp only [chLe, if_pos rfl, if_neg hab] at h1 ⊢
      exact h1
    · simp only [chLe, if_neg hab, if_neg hbc, decide_eq_true_eq] at h1 h2
      have hac : a < c := lt_trans h1 h2
      have hnac : ¬ a = c := ne_of_lt hac
      simp only [chLe, if_neg hnac, decide_eq_true_eq]
      exact hac

/-- JS `Math.round` (round half up). -/
def jsRound (q : ℚ) : ℤ := ⌊q + 1/2⌋

/-- JS `s.slice(0, n)` for ASCII strings. -/
def jsSlice (s : String) (n : ℕ) : String := String.mk (s.data.take n)

/-! ## Ledger aggregator (src/src/lib/sales-utils.ts) -/

namespace SalesUtils

/-- Summary row produced by `groupByDate`. -/
structure DateGroup where
  date : String
  tickets : ℚ
  revenue : ℚ
deriving Repr, DecidableEq

/-- The fresh group `{ date, tickets: 0, revenue: 0 }`. -/
def dateInit (d : String) : DateGroup := ⟨d, 0, 0⟩

/-- The loop body of `groupByDate`: `existing.tickets += s.quantity;
existing.revenue += (s.price_inc_vat ?? 0) * s.quantity`. -/
def dateUpd (s : TicketSale) (g : DateGroup) : DateGroup :=
  { g with
      tickets := g.tickets + s.quantity
      revenue := g.revenue + (s.price_inc_vat.getD 0) * s.quantity }

/-- Date key of a sale: `s.sold_at.slice(0, 10)`. -/
def saleDateKey (s : TicketSale) : String := jsSlice (s.sold_at.getD "") 10

/-- Comparator order of `(a, b) => a.date.localeCompare(b.date)`. -/
def dateLe (g h : DateGroup) : Prop := strLe g.date h.date = true

instance : DecidableRel dateLe :=
  fun g h => inferInstanceAs (Decidable (strLe g.date h.date = true))

instance : IsTotal DateGroup dateLe :=
  ⟨fun g h => chLe_total g.date.data h.date.data⟩

instance : IsTrans DateGroup dateLe :=
  ⟨fun g h i h1 h2 => chLe_trans g.date.data h.date.data i.date.data h1 h2⟩

/-- Embedding of `groupByDate`: records with a falsy `sold_at` are skipped
(the loop's `if (!s.sold_at) continue`, rendered as a filter), the rest are
grouped by the first ten characters of `sold_at` and sorted ascending by
date. -/
def groupByDate (sales : List TicketSale) : List DateGroup :=
  List.insertionSort dateLe
    (groupFold saleDateKey DateGroup.date dateInit dateUpd
      (sales.filter (fun s => !jsFalsyStr s.sold_at)))

/-- Summary row produced by `groupByType`. -/
structure TypeGroup where
  type : String
  tickets : ℚ
  revenue : ℚ
deriving Repr, DecidableEq

/-- The fresh group `{ type, tickets: 0, revenue: 0 }`. -/
def typeInit (t : String) : TypeGroup := ⟨t, 0, 0⟩

/-- The loop body of `groupByType`. -/
def typeUpd (s : TicketSale) (g : TypeGroup) : TypeGroup :=
  { g with
      tickets := g.tickets + s.quantity
      revenue := g.revenue + (s.price_inc_vat.getD 0) * s.quantity }

/-- Comparator order of `(a, b) => b.tickets - a.tickets` (descending by
ticket count). -/
def ticketsGe (g h : TypeGroup) : Prop := h.tickets ≤ g.tickets

instance : DecidableRel ticketsGe :=
  fun g h => inferInstanceAs (Decidable (h.tickets ≤ g.tickets))

instance : IsTotal TypeGroup ticketsGe := ⟨fun g h => le_total h.tickets g.tickets⟩

instance : IsTrans TypeGroup ticketsGe := ⟨fun _ _ _ h1 h2 => le_trans h2 h1⟩

/-- Embedding of `groupByType`: group by `ticket_type`, sort descending by
summed ticket count. -/
def groupByType (sales : List TicketSale) : List TypeGroup :=
  List.insertionSort ticketsGe
    (groupFold TicketSale.ticket_type TypeGroup.type typeInit typeUpd sales)

/-- Result record of `totalStats`. -/
structure Stats where
  totalTickets : ℚ
  totalRevenue : ℚ
  totalVat : ℚ
  todayTickets : ℚ
deriving Repr, DecidableEq

/-- Loop body of `totalStats`; `today` is the wall-clock calendar-day string
(`new Date().toISOString().slice(0, 10)`), passed as a parameter.  Note the
VAT accumulator uses `(s.vat_amount ?? 0)` with no rate-based fallback. -/
def statsStep (today : String) (st : Stats) (s : TicketSale) : Stats :=
  { st with
      totalTickets := st.totalTickets + s.quantity
      totalRevenue := st.totalRevenue + (s.price_inc_vat.getD 0) * s.quantity
      totalVat := st.totalVat + (s.vat_amount.getD 0) * s.quantity
      todayTickets := st.todayTickets +
        (match s.sold_at with
         | none => 0
         | some d => if hasPfx today.data d.data then s.quantity else 0) }

/-- Embedding of `totalStats`. -/
def totalStats (sales : List TicketSale) (today : String) : Stats :=
  sales.foldl (statsStep today) ⟨0, 0, 0, 0⟩

/-- One entry of the `dailySales` argument of `computeForecast`. -/
structure DailyCount where
  date : String
  tickets : ℚ
deriving Repr, DecidableEq

/-- Result record of `computeForecast`. -/
structure Forecast where
  currentTotal : ℚ
  avgPerDay : ℤ
  projectedTotal : ℤ
  daysUntilFestival : ℤ
deriving Repr, DecidableEq

/-- Embedding of `computeForecast`.  Wall-clock time is made explicit:
`parseMs` models `new Date(s).getTime()` and `nowMs` models the current time
in milliseconds; `Math.ceil` of the float division becomes `⌈·⌉` on `ℚ`. -/
def computeForecast (dailySales : List DailyCount) (festivalStartDate : Option String)
    (parseMs : String → ℤ) (nowMs : ℤ) : Option Forecast :=
  if dailySales.length < 2 || jsFalsyStr festivalStartDate then none
  else
    let totalDays : ℚ := dailySales.length
    let totalTickets : ℚ := (dailySales.map DailyCount.tickets).sum
    let avgPerDay : ℚ := totalTickets / totalDays
    let daysUntilFestival : ℤ :=
      max 0 ⌈(((parseMs (festivalStartDate.getD "") - nowMs : ℤ) : ℚ) / 86400000)⌉
    some
      { currentTotal := totalTickets
        avgPerDay := jsRound avgPerDay
        projectedTotal := jsRound (totalTickets + avgPerDay * (daysUntilFestival : ℚ))
        daysUntilFestival := daysUntilFestival }

end SalesUtils

/-! ## Accounting export helpers (src/src/hooks/useTicketSales.ts) -/

namespace UseTicketSales

/-- A VAT bucket of `groupSalesByVat`. -/
structure VatBucket where
  rate : ℚ
  label : String
  exVat : ℚ
  vatAmount : ℚ
  incVat : ℚ
  count : ℚ
deriving Repr, DecidableEq

/-- The bucket label: `rate ? (rate * 100).toFixed(0) + . : .0%.` modelled
with round-half-up integer rendering. -/
def percentLabel (r : ℚ) : String :=
  if r = 0 then "0%" else toString (jsRound (r * 100)) ++ "%"

/-- The fresh bucket for a rate. -/
def emptyBucket (rate : ℚ) : VatBucket := ⟨rate, percentLabel rate, 0, 0, 0, 0⟩

/-- The loop body of `groupSalesByVat`.  Note: a null `vat_amount` contributes
`0` (`s.vat_amount ?? 0`), it is not derived from the rate. -/
def updateBucket (s : TicketSale) (b : VatBucket) : VatBucket :=
  { b with
      exVat := b.exVat + (s.price_ex_vat.getD 0) * s.quantity
      vatAmount := b.vatAmount + (s.vat_amount.getD 0) * s.quantity
      incVat := b.incVat + (s.price_inc_vat.getD 0) * s.quantity
      count := b.count + s.quantity }

/-- The bucket key: `s.vat_rate ?? 0`. -/
def saleVatRate (s : TicketSale) : ℚ := s.vat_rate.getD 0

/-- Comparator order of `(a, b) => b.rate - a.rate` (descending by rate). -/
def bucketGe (a b : VatBucket) : Prop := b.rate ≤ a.rate

instance : DecidableRel bucketGe :=
  fun a b => inferInstanceAs (Decidable (b.rate ≤ a.rate))

instance : IsTotal VatBucket bucketGe := ⟨fun a b => le_total b.rate a.rate⟩

instance : IsTrans VatBucket bucketGe := ⟨fun _ _ _ h1 h2 => le_trans h2 h1⟩

/-- Embedding of `groupSalesByVat`: partition by `vat_rate ?? 0`, then sort
buckets descending by rate. -/
def groupSalesByVat (sales : List TicketSale) : List VatBucket :=
  List.insertionSort bucketGe
    (groupFold saleVatRate VatBucket.rate emptyBucket updateBucket sales)

/-- The per-row VAT amount of the economy CSV export's income rows:
`i.vat_amount ?? exVat * vatRate`. -/
def econIncomeVat (i : Income) : ℚ :=
  i.vat_amount.getD ((i.amount_ex_vat.getD 0) * (i.vat_rate.getD 0))

/-- The per-row VAT amount of the economy CSV export's expense rows. -/
def econExpenseVat (e : Expense) : ℚ :=
  e.vat_amount.getD ((e.amount_ex_vat.getD 0) * (e.vat_rate.getD 0))

/-- One per-rate cell of the VAT-summary CSV (`incVatMap` / `expVatMap`). -/
structure RateCell where
  rate : ℚ
  exVat : ℚ
  vatAmt : ℚ
deriving Repr, DecidableEq

/-- Fresh cell `{ exVat: 0, vatAmt: 0 }` for a rate. -/
def cellInit (r : ℚ) : RateCell := ⟨r, 0, 0⟩

/-- Loop body of the income `incVatMap` fold of `exportAccountingVatCsv`:
`existing.vatAmt += i.vat_amount ?? (i.amount_ex_vat ?? 0) * rate`. -/
def incomeCellUpd (i : Income) (c : RateCell) : RateCell :=
  { c with
      exVat := c.exVat + (i.amount_ex_vat.getD 0)
      vatAmt := c.vatAmt + i.vat_amount.getD ((i.amount_ex_vat.getD 0) * (i.vat_rate.getD 0)) }

/-- Loop body of the expense `expVatMap` fold of `exportAccountingVatCsv`. -/
def expenseCellUpd (e : Expense) (c : RateCell) : RateCell :=
  { c with
      exVat := c.exVat + (e.amount_ex_vat.getD 0)
      vatAmt := c.vatAmt + e.vat_amount.getD ((e.amount_ex_vat.getD 0) * (e.vat_rate.getD 0)) }

/-- Key of the per-rate folds: `i.vat_rate ?? 0`. -/
def incomeVatRate (i : Income) : ℚ := i.vat_rate.getD 0

/-- Key of the expense per-rate fold: `e.vat_rate ?? 0`. -/
def expenseVatRate (e : Expense) : ℚ := e.vat_rate.getD 0

/-- Comparator order of `(a, b) => b[0] - a[0]` on the per-rate cells. -/
def cellGe (a b : RateCell) : Prop := b.rate ≤ a.rate

instance : DecidableRel cellGe :=
  fun a b => inferInstanceAs (Decidable (b.rate ≤ a.rate))

instance : IsTotal RateCell cellGe := ⟨fun a b => le_total b.rate a.rate⟩

instance : IsTrans RateCell cellGe := ⟨fun _ _ _ h1 h2 => le_trans h2 h1⟩

/-- The income-by-rate fold of `exportAccountingVatCsv` (actual rows only,
sorted descending by rate). -/
def incomeByVat (income : List Income) : List RateCell :=
  List.insertionSort cellGe
    (groupFold incomeVatRate RateCell.rate cellInit incomeCellUpd
      (income.filter (fun i => !i.is_budget)))

/-- The expense-by-rate fold of `exportAccountingVatCsv`. -/
def expenseByVat (expenses : List Expense) : List RateCell :=
  List.insertionSort cellGe
    (groupFold expenseVatRate RateCell.rate cellInit expenseCellUpd
      (expenses.filter (fun e => !e.is_budget)))

/-- All numeric aggregates of `exportAccountingSummaryCsv`, including the
`SUM INNTEKTER`, `SUM KOSTNADER` and `RESULTAT` rows.  `Array.reduce((s, r) =>
s + f(r), 0)` is rendered as the sum of the mapped values. -/
structure SummaryTotals where
  ticketExVat : ℚ
  ticketVat : ℚ
  fnbExVat : ℚ
  fnbVat : ℚ
  otherIncExVat : ℚ
  otherIncVat : ℚ
  totalIncExVat : ℚ
  totalIncVat : ℚ
  expExVat : ℚ
  expVat : ℚ
  resultatExVat : ℚ
  resultatVat : ℚ
  resultatIncVat : ℚ
deriving Repr, DecidableEq

/-- Embedding of the numeric content of `exportAccountingSummaryCsv`. -/
def summaryTotals (sales : List TicketSale) (income : List Income)
    (expenses : List Expense) : SummaryTotals :=
  let tickets := sales.filter (fun s => !(s.category == "fb"))
  let ticketExVat := (tickets.map (fun r => (r.price_ex_vat.getD 0) * r.quantity)).sum
  let ticketVat := (tickets.map (fun r => (r.vat_amount.getD 0) * r.quantity)).sum
  let fnb := sales.filter (fun s => s.category == "fb")
  let fnbExVat := (fnb.map (fun r => (r.price_ex_vat.getD 0) * r.quantity)).sum
  let fnbVat := (fnb.map (fun r => (r.vat_amount.getD 0) * r.quantity)).sum
  let actualIncome := income.filter (fun i => !i.is_budget)
  let otherIncExVat := (actualIncome.map (fun i => i.amount_ex_vat.getD 0)).sum
  let otherIncVat := (actualIncome.map econIncomeVat).sum
  let totalIncExVat := ticketExVat + fnbExVat + otherIncExVat
  let totalIncVat := ticketVat + fnbVat + otherIncVat
  let actualExpenses := expenses.filter (fun e => !e.is_budget)
  let expExVat := (actualExpenses.map (fun e => e.amount_ex_vat.getD 0)).sum
  let expVat := (actualExpenses.map econExpenseVat).sum
  { ticketExVat := ticketExVat
    ticketVat := ticketVat
    fnbExVat := fnbExVat
    fnbVat := fnbVat
    otherIncExVat := otherIncExVat
    otherIncVat := otherIncVat
    totalIncExVat := totalIncExVat
    totalIncVat := totalIncVat
    expExVat := expExVat
    expVat := expVat
    resultatExVat := totalIncExVat - expExVat
    resultatVat := totalIncVat - expVat
    resultatIncVat := (totalIncExVat + totalIncVat) - (expExVat + expVat) }

end UseTicketSales

/-! ## Annual-report PDF, economy section (generateAnnualReportPdf) -/

namespace ReportPdf

/-- VAT-inclusive amount of one income row as summed by the PDF's economy
section: `(i.amount_ex_vat ?? 0) + (i.vat_amount ?? (i.amount_ex_vat ?? 0) *
(i.vat_rate ?? 0))`. -/
def incomeIncVat (i : Income) : ℚ :=
  (i.amount_ex_vat.getD 0) + i.vat_amount.getD ((i.amount_ex_vat.getD 0) * (i.vat_rate.getD 0))

/-- VAT-inclusive amount of one expense row as summed by the PDF. -/
def expenseIncVat (e : Expense) : ℚ :=
  (e.amount_ex_vat.getD 0) + e.vat_amount.getD ((e.amount_ex_vat.getD 0) * (e.vat_rate.getD 0))

/-- `totalInc` of the PDF economy section (actual income only). -/
def totalInc (income : List Income) : ℚ :=
  ((income.filter (fun i => !i.is_budget)).map incomeIncVat).sum

/-- `totalExp` of the PDF economy section (actual expenses only). -/
def totalExp (expenses : List Expense) : ℚ :=
  ((expenses.filter (fun e => !e.is_budget)).map expenseIncVat).sum

/-- The amount printed on the PDF's `RESULTAT` row:
`fmtCurrency(totalInc - totalExp, currency)`. -/
def resultat (income : List Income) (expenses : List Expense) : ℚ :=
  totalInc income - totalExp expenses

end ReportPdf

/-! ## Ticket sync job (src/supabase/functions/ticketco-sync/index.ts) -/

namespace TicketcoSync

/-- One TicketCo order line (`order_lines[]` of the provider payload). -/
structure OrderLine where
  id : ℤ
  title : String
  quantity : ℚ
  price : ℚ
  vat_amount : ℚ
  vat_rate : ℚ
  category : Option String
deriving Repr, DecidableEq

/-- One TicketCo order. -/
structure Order where
  id : ℤ
  created_at : String
  order_lines : List OrderLine
  source : Option String
deriving Repr, DecidableEq

/-- The food/beverage classifier of the `salesRows` transform:
`(line.category ?? '').toLowerCase().includes(needle)` for the four needles,
joined by `||`. -/
def isFood (line : OrderLine) : Bool :=
  jsIncludes (jsToLower (line.category.getD "")) "food"
    || jsIncludes (jsToLower (line.category.getD "")) "mat"
    || jsIncludes (jsToLower (line.category.getD "")) "drikke"
    || jsIncludes (jsToLower (line.category.getD "")) "beverage"

/-- One element of `salesRows`: the transform of one order line into a
`ticket_sales` row.  `now` models `new Date().toISOString()` at transform
time. -/
def toSalesRow (fid : String) (now : String) (order : Order) (line : OrderLine) : TicketSale :=
  { festival_id := fid
    ticketco_id := toString order.id ++ "-" ++ toString line.id
    ticket_type := line.title
    category := if isFood line then "fb" else "ticket"
    quantity := line.quantity
    price_ex_vat := some (line.price - line.vat_amount)
    vat_rate := some (line.vat_rate / 100)
    vat_amount := some line.vat_amount
    price_inc_vat := some line.price
    sale_channel := some (if order.source = some "pos" then "pos" else "web")
    sold_at := some order.created_at
    synced_at := some now }

/-- The `salesRows` flat-map: one row per order line. -/
def salesRows (fid : String) (now : String) (orders : List Order) : List TicketSale :=
  orders.flatMap (fun order => order.order_lines.map (toSalesRow fid now order))

/-- One database upsert with `onConflict: 'ticketco_id'`: replace the row
carrying the same external id, or insert the row. -/
def upsertOne (store : List TicketSale) (r : TicketSale) : List TicketSale :=
  if store.any (fun x => x.ticketco_id == r.ticketco_id) then
    store.map (fun x => if x.ticketco_id == r.ticketco_id then r else x)
  else store ++ [r]

/-- Upserting a list of rows, first to last (the batched loop; batching in
chunks of 500 composes to exactly this fold, see `upsertRows_append`). -/
def upsertRows (store : List TicketSale) (rows : List TicketSale) : List TicketSale :=
  rows.foldl upsertOne store

/-- Looking a row up by external id. -/
def lookupRow (store : List TicketSale) (tid : String) : Option TicketSale :=
  store.find? (fun x => x.ticketco_id == tid)

/-- One page of the provider's paginated orders endpoint, as seen by the
fetch loop: either a non-2xx response (with the thrown error message) or a
JSON page of orders. -/
inductive PageResp where
  | fail (msg : String)
  | page (orders : List Order)
deriving Repr, DecidableEq

/-- The pagination loop: accumulate pages until an empty page; a non-2xx
response throws.  The tenant's provider behaviour is the list of responses
for pages 1, 2, …; an exhausted list behaves as an empty page. -/
def fetchOrders : List PageResp → Except String (List Order)
  | [] => .ok []
  | .fail m :: _ => .error m
  | .page [] :: _ => .ok []
  | .page os :: rest =>
    match fetchOrders rest with
    | .ok more => .ok (os ++ more)
    | .error m => .error m

/-- Status of a sync log entry. -/
inductive LogStatus where
  | success
  | failed
deriving Repr, DecidableEq

/-- One `ticketco_sync_log` row. -/
structure LogEntry where
  festival_id : String
  records_synced : ℕ
  status : LogStatus
  error_message : Option String
deriving Repr, DecidableEq

/-- One tenant (`festival_integrations` row) together with its provider's
behaviour for this run. -/
structure Tenant where
  festival_id : String
  pages : List PageResp
deriving Repr, DecidableEq

/-- The body of the per-tenant loop: on a fetch error the catch block logs an
error entry and leaves storage untouched; otherwise the rows are upserted and
a success entry with the row count is logged. -/
def syncStep (now : String) (st : List TicketSale × List LogEntry) (t : Tenant) :
    List TicketSale × List LogEntry :=
  match fetchOrders t.pages with
  | .error m =>
    (st.1, st.2 ++ [{ festival_id := t.festival_id, records_synced := 0,
                      status := .failed, error_message := some m }])
  | .ok orders =>
    let rows := salesRows t.festival_id now orders
    (upsertRows st.1 rows,
      st.2 ++ [{ festival_id := t.festival_id, records_synced := rows.length,
                 status := .success, error_message := none }])

/-- The multi-tenant sweep: process tenants in order, threading storage, and
collect one log entry per tenant. -/
def runSync (now : String) (store : List TicketSale) (tenants : List Tenant) :
    List TicketSale × List LogEntry :=
  tenants.foldl (syncStep now) (store, [])

end TicketcoSync

/-! ## Derived facts about the VAT bucketing -/

namespace UseTicketSales

/-- Closed form of folding `updateBucket` over a list of sales. -/
theorem foldl_updateBucket (l : List TicketSale) (b : VatBucket) :
    l.foldl (fun b s => updateBucket s b) b
      = ⟨b.rate, b.label,
         b.exVat + (l.map fun s => (s.price_ex_vat.getD 0) * s.quantity).sum,
         b.vatAmount + (l.map fun s => (s.vat_amount.getD 0) * s.quantity).sum,
         b.incVat + (l.map fun s => (s.price_inc_vat.getD 0) * s.quantity).sum,
         b.count + (l.map TicketSale.quantity).sum⟩ := by
  induction l generalizing b with
  | nil => simp
  | cons s l ih =>
    rw [List.foldl_cons, ih]
    simp [updateBucket, add_assoc]

/-- Every bucket of `groupSalesByVat` carries the sums over exactly the sales
with its rate. -/
theorem groupSalesByVat_bucket_sums (sales : List TicketSale) (b : VatBucket)
    (hb : b ∈ groupSalesByVat sales) :
    b.exVat = ((sales.filter fun s => saleVatRate s == b.rate).map
        fun s => (s.price_ex_vat.getD 0) * s.quantity).sum
      ∧ b.vatAmount = ((sales.filter fun s => saleVatRate s == b.rate).map
        fun s => (s.vat_amount.getD 0) * s.quantity).sum
      ∧ b.incVat = ((sales.filter fun s => saleVatRate s == b.rate).map
        fun s => (s.price_inc_vat.getD 0) * s.quantity).sum
      ∧ b.count = ((sales.filter fun s => saleVatRate s == b.rate).map
        TicketSale.quantity).sum := by
  have hb2 : b ∈ groupFold saleVatRate VatBucket.rate emptyBucket updateBucket sales :=
    (List.perm_insertionSort bucketGe _).mem_iff.mp hb
  rw [mem_groupFold_iff saleVatRate VatBucket.rate emptyBucket updateBucket
    (fun _ => rfl) (fun _ _ => rfl) sales b] at hb2
  obtain ⟨-, hcanon⟩ := hb2
  rw [canonGroup, foldl_updateBucket] at hcanon
  simp only [emptyBucket, zero_add] at hcanon
  exact ⟨congrArg VatBucket.exVat hcanon, congrArg VatBucket.vatAmount hcanon,
    congrArg VatBucket.incVat hcanon, congrArg VatBucket.count hcanon⟩

/-- The bucket rates of `groupSalesByVat` are exactly the (null-defaulted)
rates occurring in the input. -/
theorem groupSalesByVat_rates (sales : List TicketSale) (r : ℚ) :
    (∃ b ∈ groupSalesByVat sales, b.rate = r) ↔ r ∈ sales.map saleVatRate := by
  have hspec := groupFold_spec saleVatRate VatBucket.rate emptyBucket updateBucket
    (fun _ => rfl) (fun _ _ => rfl) sales
  constructor
  · rintro ⟨b, hb, rfl⟩
    have hb2 : b ∈ groupFold saleVatRate VatBucket.rate emptyBucket updateBucket sales :=
      (List.perm_insertionSort bucketGe _).mem_iff.mp hb
    exact (hspec.2.1 b.rate).mp (List.mem_map_of_mem VatBucket.rate hb2)
  · intro hr
    obtain ⟨b, hb, hbr⟩ := List.mem_map.mp ((hspec.2.1 r).mpr hr)
    exact ⟨b, (List.perm_insertionSort bucketGe _).mem_iff.mpr hb, hbr⟩

end UseTicketSales

/-! ## Example records used in the concrete scenarios -/

/-- Ticket sale `vat_rate=0.25, price_ex_vat=80, quantity=2` (with the
VAT amount and inclusive price the data-model invariant prescribes). -/
def saleRow80 : TicketSale :=
  { festival_id := "f1", ticketco_id := "10-1", ticket_type := "Dagspass",
    category := "ticket", quantity := 2, price_ex_vat := some 80,
    vat_rate := some (1/4), vat_amount := some 20, price_inc_vat := some 100,
    sale_channel := some "web", sold_at := some "2026-07-02T10:00:00Z",
    synced_at := none }

/-- Ticket sale `vat_rate=0.25, price_ex_vat=100, quantity=1`. -/
def saleRow100 : TicketSale :=
  { festival_id := "f1", ticketco_id := "10-2", ticket_type := "Helgepass",
    category := "ticket", quantity := 1, price_ex_vat := some 100,
    vat_rate := some (1/4), vat_amount := some 25, price_inc_vat := some 125,
    sale_channel := some "web", sold_at := some "2026-07-01T09:00:00Z",
    synced_at := none }

/-- Ticket sale with `price_ex_vat=100`, `vat_rate=0.25` and a *null*
`vat_amount` (the record of the VAT-fallback scenario). -/
def saleRowNullVat : TicketSale :=
  { festival_id := "f1", ticketco_id := "10-3", ticket_type := "Dagspass",
    category := "ticket", quantity := 1, price_ex_vat := some 100,
    vat_rate := some (1/4), vat_amount := none, price_inc_vat := some 125,
    sale_channel := some "web", sold_at := some "2026-07-03T09:00:00Z",
    synced_at := none }

/-- Income row `amount_ex_vat=100, vat_rate=0.25, vat_amount=null` (actual,
not budget). -/
def inc100 : Income :=
  { category := "Tilskudd", description := none, amount_ex_vat := some 100,
    vat_rate := some (1/4), vat_amount := none, source := some "Kommunen",
    is_budget := false, date := some "2026-05-01" }

/-- Expense row `amount_ex_vat=100, vat_rate=0.25, vat_amount=null` (actual). -/
def exp100 : Expense :=
  { category := "Leie", description := none, amount_ex_vat := some 100,
    vat_rate := some (1/4), vat_amount := none, supplier := some "Huseier",
    is_budget := false, date := some "2026-05-02" }

/-- C5: `groupSalesByVat` partitions the sales by VAT rate into buckets
holding the summed excl.-VAT total, VAT total, incl.-VAT total and item
count, sorted descending by rate; a null rate buckets under rate 0; and on
the two scenario rows (`0.25/80/qty 2` and `0.25/100/qty 1`) the single
bucket for rate 0.25 is `exVat=260, vatAmount=65, incVat=325, count=3`. -/
theorem c5_vat_bucketing :
    (∀ sales : List TicketSale,
        List.Sorted UseTicketSales.bucketGe (UseTicketSales.groupSalesByVat sales))
      ∧ (∀ (sales : List TicketSale) (b : UseTicketSales.VatBucket),
          b ∈ UseTicketSales.groupSalesByVat sales →
            b.exVat = ((sales.filter fun s => UseTicketSales.saleVatRate s == b.rate).map
                fun s => (s.price_ex_vat.getD 0) * s.quantity).sum
              ∧ b.vatAmount = ((sales.filter fun s => UseTicketSales.saleVatRate s == b.rate).map
                fun s => (s.vat_amount.getD 0) * s.quantity).sum
              ∧ b.incVat = ((sales.filter fun s => UseTicketSales.saleVatRate s == b.rate).map
                fun s => (s.price_inc_vat.getD 0) * s.quantity).sum
              ∧ b.count = ((sales.filter fun s => UseTicketSales.saleVatRate s == b.rate).map
                TicketSale.quantity).sum)
      ∧ (∀ (sales : List TicketSale) (r : ℚ),
          (∃ b ∈ UseTicketSales.groupSalesByVat sales, b.rate = r)
            ↔ r ∈ sales.map UseTicketSales.saleVatRate)
      ∧ (∀ (sales : List TicketSale) (s : TicketSale), s ∈ sales → s.vat_rate = none →
          ∃ b ∈ UseTicketSales.groupSalesByVat sales, b.rate = 0)
      ∧ UseTicketSales.groupSalesByVat [saleRow80, saleRow100]
          = [⟨1/4, UseTicketSales.percentLabel (1/4), 260, 65, 325, 3⟩] := by
  refine ⟨?_, ?_, ?_, ?_, ?_⟩
  · intro sales
    exact List.sorted_insertionSort UseTicketSales.bucketGe _
  · exact UseTicketSales.groupSalesByVat_bucket_sums
  · exact UseTicketSales.groupSalesByVat_rates
  · intro sales s hs hnone
    refine (UseTicketSales.groupSalesByVat_rates sales 0).mpr ?_
    refine List.mem_map.mpr ⟨s, hs, ?_⟩
    simp [UseTicketSales.saleVatRate, hnone]
  · norm_num [UseTicketSales.groupSalesByVat, groupFold, groupStep,
      UseTicketSales.saleVatRate, UseTicketSales.emptyBucket, UseTicketSales.updateBucket,
      saleRow80, saleRow100, List.insertionSort, List.orderedInsert]

/-- Witness for C5: the bucket-sum conjunct applied to the concrete scenario
bucket, and the null-rate conjunct applied to a concrete null-rate sale. -/
theorem c5_vat_bucketing_witness :
    (65 : ℚ) = (([saleRow80, saleRow100].filter
        fun s => UseTicketSales.saleVatRate s == (1/4 : ℚ)).map
        fun s => (s.vat_amount.getD 0) * s.quantity).sum := by
  have h := c5_vat_bucketing
  have hmem : (⟨1/4, UseTicketSales.percentLabel (1/4), 260, 65, 325, 3⟩ :
      UseTicketSales.VatBucket) ∈ UseTicketSales.groupSalesByVat [saleRow80, saleRow100] := by
    rw [h.2.2.2.2]
    exact List.mem_singleton.mpr rfl
  exact (h.2.1 [saleRow80, saleRow100] _ hmem).2.1

/-- C2 (counterexample): for a sale with `price_ex_vat=100`, `vat_rate=0.25`
and `vat_amount=null`, the sales aggregators do *not* derive the VAT amount
from the rate: `totalStats` and `groupSalesByVat` both compute a VAT total of
0, not 25 — refuting "every aggregation path derives `amount_ex_vat ×
vat_rate`". -/
theorem c2_vat_fallback_counterexample :
    (SalesUtils.totalStats [saleRowNullVat] "2026-01-01").totalVat = 0
      ∧ (UseTicketSales.groupSalesByVat [saleRowNullVat]).map
          UseTicketSales.VatBucket.vatAmount = [0]
      ∧ (0 : ℚ) ≠ 25 := by
  refine ⟨?_, ?_, by norm_num⟩
  · norm_num [SalesUtils.totalStats, SalesUtils.statsStep, saleRowNullVat]
  · norm_num [UseTicketSales.groupSalesByVat, groupFold, groupStep,
      UseTicketSales.saleVatRate, UseTicketSales.emptyBucket, UseTicketSales.updateBucket,
      saleRowNullVat, List.insertionSort, List.orderedInsert]

/-- C2 (amended): the `amount_ex_vat × vat_rate` fallback for a null
`vat_amount` is applied in every income/expense aggregation path (economy CSV
rows, VAT-summary CSV per-rate cells, accounting-summary CSV totals, and the
annual-report PDF economy totals — `100 × 0.25 = 25`), while the ticket-sales
aggregators (`groupSalesByVat`, `totalStats`) instead treat a null
`vat_amount` as 0. -/
theorem c2_vat_fallback_amended :
    (∀ i : Income, i.vat_amount = none →
        UseTicketSales.econIncomeVat i = (i.amount_ex_vat.getD 0) * (i.vat_rate.getD 0))
      ∧ (∀ e : Expense, e.vat_amount = none →
        UseTicketSales.econExpenseVat e = (e.amount_ex_vat.getD 0) * (e.vat_rate.getD 0))
      ∧ (UseTicketSales.summaryTotals [] [inc100] []).otherIncVat = 25
      ∧ (UseTicketSales.summaryTotals [] [] [exp100]).expVat = 25
      ∧ UseTicketSales.incomeByVat [inc100] = [⟨1/4, 100, 25⟩]
      ∧ UseTicketSales.expenseByVat [exp100] = [⟨1/4, 100, 25⟩]
      ∧ ReportPdf.totalInc [inc100] = 125
      ∧ ReportPdf.totalExp [exp100] = 125
      ∧ (∀ (s : TicketSale) (d : String), s.vat_amount = none →
          (SalesUtils.totalStats [s] d).totalVat = 0)
      ∧ (∀ (s : TicketSale) (b : UseTicketSales.VatBucket), s.vat_amount = none →
          b ∈ UseTicketSales.groupSalesByVat [s] → b.vatAmount = 0) := by
  refine ⟨?_, ?_, ?_, ?_, ?_, ?_, ?_, ?_, ?_, ?_⟩
  · intro i h
    simp [UseTicketSales.econIncomeVat, h]
  · intro e h
    simp [UseTicketSales.econExpenseVat, h]
  · norm_num [UseTicketSales.summaryTotals, UseTicketSales.econIncomeVat, inc100]
  · norm_num [UseTicketSales.summaryTotals, UseTicketSales.econExpenseVat, exp100]
  · norm_num [UseTicketSales.incomeByVat, groupFold, groupStep, UseTicketSales.cellInit,
      UseTicketSales.incomeCellUpd, UseTicketSales.incomeVatRate, inc100,
      List.insertionSort, List.orderedInsert]
  · norm_num [UseTicketSales.expenseByVat, groupFold, groupStep, UseTicketSales.cellInit,
      UseTicketSales.expenseCellUpd, UseTicketSales.expenseVatRate, exp100,
      List.insertionSort, List.orderedInsert]
  · norm_num [ReportPdf.totalInc, ReportPdf.incomeIncVat, inc100]
  · norm_num [ReportPdf.totalExp, ReportPdf.expenseIncVat, exp100]
  · intro s d h
    simp [SalesUtils.totalStats, SalesUtils.statsStep, h]
  · intro s b h hb
    have hsum := (UseTicketSales.groupSalesByVat_bucket_sums [s] b hb).2.1
    rw [hsum]
    by_cases hP : (UseTicketSales.saleVatRate s == b.rate) = true
    · simp [List.filter_cons, hP, h]
    · simp [List.filter_cons, hP]

/-- Witness for C2's amended claim: the fallback rule at the concrete income
row, and the sales-side null-as-zero behaviour at the concrete sale. -/
theorem c2_vat_fallback_witness :
    UseTicketSales.econIncomeVat inc100 = 25
      ∧ (SalesUtils.totalStats [saleRowNullVat] "2026-02-02").totalVat = 0 := by
  constructor
  · have h := c2_vat_fallback_amended.1 inc100 rfl
    rw [h]
    norm_num [inc100]
  · exact c2_vat_fallback_amended.2.2.2.2.2.2.2.2.1 saleRowNullVat "2026-02-02" rfl

/-! ## Derived facts about the date/type grouping and the totals -/

namespace SalesUtils

/-- Closed form of folding `dateUpd` over a list of sales. -/
theorem foldl_dateUpd (l : List TicketSale) (g : DateGroup) :
    l.foldl (fun g s => dateUpd s g) g
      = ⟨g.date, g.tickets + (l.map TicketSale.quantity).sum,
         g.revenue + (l.map fun s => (s.price_inc_vat.getD 0) * s.quantity).sum⟩ := by
  induction l generalizing g with
  | nil => simp
  | cons s l ih =>
    rw [List.foldl_cons, ih]
    simp [dateUpd, add_assoc]

/-- Closed form of folding `typeUpd` over a list of sales. -/
theorem foldl_typeUpd (l : List TicketSale) (g : TypeGroup) :
    l.foldl (fun g s => typeUpd s g) g
      = ⟨g.type, g.tickets + (l.map TicketSale.quantity).sum,
         g.revenue + (l.map fun s => (s.price_inc_vat.getD 0) * s.quantity).sum⟩ := by
  induction l generalizing g with
  | nil => simp
  | cons s l ih =>
    rw [List.foldl_cons, ih]
    simp [typeUpd, add_assoc]

/-- Every group of `groupByDate` carries the summed quantity and summed
VAT-inclusive revenue of exactly the (dated) sales of its calendar day. -/
theorem groupByDate_group_sums (sales : List TicketSale) (g : DateGroup)
    (hg : g ∈ groupByDate sales) :
    g.tickets = (((sales.filter fun s => !jsFalsyStr s.sold_at).filter
        fun s => saleDateKey s == g.date).map TicketSale.quantity).sum
      ∧ g.revenue = (((sales.filter fun s => !jsFalsyStr s.sold_at).filter
        fun s => saleDateKey s == g.date).map
        fun s => (s.price_inc_vat.getD 0) * s.quantity).sum := by
  have hg2 : g ∈ groupFold saleDateKey DateGroup.date dateInit dateUpd
      (sales.filter fun s => !jsFalsyStr s.sold_at) :=
    (List.perm_insertionSort dateLe _).mem_iff.mp hg
  rw [mem_groupFold_iff saleDateKey DateGroup.date dateInit dateUpd
    (fun _ => rfl) (fun _ _ => rfl) _ g] at hg2
  obtain ⟨-, hcanon⟩ := hg2
  rw [canonGroup, foldl_dateUpd] at hcanon
  simp only [dateInit, zero_add] at hcanon
  exact ⟨congrArg DateGroup.tickets hcanon, congrArg DateGroup.revenue hcanon⟩

/-- Every group of `groupByType` carries the summed quantity and summed
VAT-inclusive revenue of exactly the sales of its ticket type. -/
theorem groupByType_group_sums (sales : List TicketSale) (g : TypeGroup)
    (hg : g ∈ groupByType sales) :
    g.tickets = ((sales.filter fun s => s.ticket_type == g.type).map
        TicketSale.quantity).sum
      ∧ g.revenue = ((sales.filter fun s => s.ticket_type == g.type).map
        fun s => (s.price_inc_vat.getD 0) * s.quantity).sum := by
  have hg2 : g ∈ groupFold TicketSale.ticket_type TypeGroup.type typeInit typeUpd sales :=
    (List.perm_insertionSort ticketsGe _).mem_iff.mp hg
  rw [mem_groupFold_iff TicketSale.ticket_type TypeGroup.type typeInit typeUpd
    (fun _ => rfl) (fun _ _ => rfl) sales g] at hg2
  obtain ⟨-, hcanon⟩ := hg2
  rw [canonGroup, foldl_typeUpd] at hcanon
  simp only [typeInit, zero_add] at hcanon
  exact ⟨congrArg TypeGroup.tickets hcanon, congrArg TypeGroup.revenue hcanon⟩

/-- Closed form of `totalStats`. -/
theorem totalStats_fields (sales : List TicketSale) (d : String) :
    totalStats sales d
      = ⟨(sales.map TicketSale.quantity).sum,
         (sales.map fun s => (s.price_inc_vat.getD 0) * s.quantity).sum,
         (sales.map fun s => (s.vat_amount.getD 0) * s.quantity).sum,
         (sales.map fun s =>
           match s.sold_at with
           | none => 0
           | some dd => if hasPfx d.data dd.data then s.quantity else 0).sum⟩ := by
  have hstep : ∀ (l : List TicketSale) (st : Stats),
      l.foldl (statsStep d) st
        = ⟨st.totalTickets + (l.map TicketSale.quantity).sum,
           st.totalRevenue + (l.map fun s => (s.price_inc_vat.getD 0) * s.quantity).sum,
           st.totalVat + (l.map fun s => (s.vat_amount.getD 0) * s.quantity).sum,
           st.todayTickets + (l.map fun s =>
             match s.sold_at with
             | none => 0
             | some dd => if hasPfx d.data dd.data then s.quantity else 0).sum⟩ := by
    intro l
    induction l with
    | nil => intro st; simp
    | cons s l ih =>
      intro st
      rw [List.foldl_cons, ih]
      simp [statsStep, add_assoc]
  rw [totalStats, hstep]
  simp

end SalesUtils

/-- C9: `groupByDate` returns its summaries sorted ascending by date (on the
scenario input dated 2026-07-02 then 2026-07-01 the dates come back as
2026-07-01, 2026-07-02), `groupByType` returns its summaries sorted descending
by summed ticket count, and every summary of either carries the summed
quantity and summed VAT-inclusive revenue of its group. -/
theorem c9_grouping_order :
    (∀ sales : List TicketSale,
        List.Sorted SalesUtils.dateLe (SalesUtils.groupByDate sales))
      ∧ (∀ (sales : List TicketSale) (g : SalesUtils.DateGroup),
          g ∈ SalesUtils.groupByDate sales →
            g.tickets = (((sales.filter fun s => !jsFalsyStr s.sold_at).filter
                fun s => SalesUtils.saleDateKey s == g.date).map TicketSale.quantity).sum
              ∧ g.revenue = (((sales.filter fun s => !jsFalsyStr s.sold_at).filter
                fun s => SalesUtils.saleDateKey s == g.date).map
                fun s => (s.price_inc_vat.getD 0) * s.quantity).sum)
      ∧ (∀ sales : List TicketSale,
          List.Sorted SalesUtils.ticketsGe (SalesUtils.groupByType sales))
      ∧ (∀ (sales : List TicketSale) (g : SalesUtils.TypeGroup),
          g ∈ SalesUtils.groupByType sales →
            g.tickets = ((sales.filter fun s => s.ticket_type == g.type).map
                TicketSale.quantity).sum
              ∧ g.revenue = ((sales.filter fun s => s.ticket_type == g.type).map
                fun s => (s.price_inc_vat.getD 0) * s.quantity).sum)
      ∧ (SalesUtils.groupByDate [saleRow80, saleRow100]).map SalesUtils.DateGroup.date
          = ["2026-07-01", "2026-07-02"] := by
  refine ⟨?_, SalesUtils.groupByDate_group_sums, ?_, SalesUtils.groupByType_group_sums, ?_⟩
  · intro sales
    exact List.sorted_insertionSort SalesUtils.dateLe _
  · intro sales
    exact List.sorted_insertionSort SalesUtils.ticketsGe _
  · decide

/-- Witness for C9: the group-sum conjunct applied to the concrete 2026-07-02
group of the scenario input. -/
theorem c9_grouping_order_witness :
    (2 : ℚ) = ((([saleRow80, saleRow100].filter fun s => !jsFalsyStr s.sold_at).filter
        fun s => SalesUtils.saleDateKey s == "2026-07-02").map TicketSale.quantity).sum := by
  have h := c9_grouping_order
  have hmem : (⟨"2026-07-02", 2, 200⟩ : SalesUtils.DateGroup)
      ∈ SalesUtils.groupByDate [saleRow80, saleRow100] := by
    norm_num [SalesUtils.groupByDate, groupFold, groupStep, SalesUtils.saleDateKey,
      SalesUtils.dateInit, SalesUtils.dateUpd, jsSlice, jsFalsyStr, saleRow80, saleRow100,
      List.insertionSort, List.orderedInsert, SalesUtils.dateLe, strLe, chLe]
    rw [if_neg (by decide)]
    exact List.mem_cons_of_mem _ (List.mem_singleton.mpr rfl)
  exact (h.2.1 [saleRow80, saleRow100] _ hmem).1

/-- Sale with a null `sold_at` timestamp and quantity 1. -/
def saleNoDate : TicketSale :=
  { festival_id := "f1", ticketco_id := "10-4", ticket_type := "Dagspass",
    category := "ticket", quantity := 1, price_ex_vat := some 100,
    vat_rate := some (1/4), vat_amount := some 25, price_inc_vat := some 125,
    sale_channel := some "web", sold_at := none, synced_at := none }

/-- C10: a sale with a null `sold_at` is skipped entirely by `groupByDate`
(removing it changes nothing), while `totalStats` still counts its quantity;
hence on the concrete one-record input the tickets summed over
`groupByDate`'s output (0) are strictly below `totalStats`'s `totalTickets`
(1). -/
theorem c10_null_sold_at_divergence :
    (∀ (pre post : List TicketSale) (s : TicketSale), s.sold_at = none →
        SalesUtils.groupByDate (pre ++ s :: post) = SalesUtils.groupByDate (pre ++ post))
      ∧ (∀ (pre post : List TicketSale) (s : TicketSale) (d : String), s.sold_at = none →
        (SalesUtils.totalStats (pre ++ s :: post) d).totalTickets
          = (SalesUtils.totalStats (pre ++ post) d).totalTickets + s.quantity)
      ∧ ((SalesUtils.groupByDate [saleNoDate]).map SalesUtils.DateGroup.tickets).sum = 0
      ∧ (SalesUtils.totalStats [saleNoDate] "2026-01-01").totalTickets = 1
      ∧ (0 : ℚ) < 1 := by
  refine ⟨?_, ?_, ?_, ?_, by norm_num⟩
  · intro pre post s h
    have hf : (!jsFalsyStr s.sold_at) = false := by rw [h]; rfl
    simp only [SalesUtils.groupByDate, List.filter_append, List.filter_cons, hf,
      Bool.false_eq_true, if_false]
  · intro pre post s d h
    rw [SalesUtils.totalStats_fields, SalesUtils.totalStats_fields]
    simp [add_comm, add_assoc, add_left_comm]
  · norm_num [SalesUtils.groupByDate, groupFold, jsFalsyStr, saleNoDate,
      List.insertionSort]
  · norm_num [SalesUtils.totalStats, SalesUtils.statsStep, saleNoDate]

/-- Witness for C10: the skip/count conjuncts applied at the concrete
null-`sold_at` sale. -/
theorem c10_null_sold_at_witness :
    SalesUtils.groupByDate [saleNoDate] = SalesUtils.groupByDate []
      ∧ (SalesUtils.totalStats [saleNoDate] "2026-01-01").totalTickets
          = (SalesUtils.totalStats [] "2026-01-01").totalTickets + saleNoDate.quantity := by
  constructor
  · exact c10_null_sold_at_divergence.1 [] [] saleNoDate rfl
  · exact c10_null_sold_at_divergence.2.1 [] [] saleNoDate "2026-01-01" rfl

/-- C6: `computeForecast` returns `null` whenever fewer than two daily-sales
entries exist (whatever the start date), or when no festival start date is
configured; any forecast it does return has a non-negative
`daysUntilFestival`. -/
theorem c6_forecast_null_guard :
    (∀ (ds : List SalesUtils.DailyCount) (fs : Option String) (p : String → ℤ) (n : ℤ),
        ds.length < 2 → SalesUtils.computeForecast ds fs p n = none)
      ∧ (∀ (ds : List SalesUtils.DailyCount) (p : String → ℤ) (n : ℤ),
        SalesUtils.computeForecast ds none p n = none)
      ∧ (∀ (ds : List SalesUtils.DailyCount) (fs : Option String) (p : String → ℤ)
          (n : ℤ) (f : SalesUtils.Forecast),
        SalesUtils.computeForecast ds fs p n = some f → 0 ≤ f.daysUntilFestival) := by
  refine ⟨?_, ?_, ?_⟩
  · intro ds fs p n h
    simp [SalesUtils.computeForecast, h]
  · intro ds p n
    simp [SalesUtils.computeForecast, jsFalsyStr]
  · intro ds fs p n f hf
    simp only [SalesUtils.computeForecast] at hf
    split at hf
    · cases hf
    · rw [← Option.some.inj hf]
      exact le_max_left 0 _

/-- Witness for C6: the short-input guard at a one-entry list, and the
non-negativity conjunct at a concrete returned forecast. -/
theorem c6_forecast_null_guard_witness :
    SalesUtils.computeForecast [⟨"2026-07-01", 3⟩] (some "2026-07-05")
        (fun _ => 172800000) 0 = none
      ∧ 0 ≤ (⟨8, jsRound 4, jsRound 16, 2⟩ : SalesUtils.Forecast).daysUntilFestival := by
  constructor
  · exact c6_forecast_null_guard.1 _ _ _ _ (by norm_num)
  · have hsome : SalesUtils.computeForecast
        [⟨"2026-07-01", 3⟩, ⟨"2026-07-02", 5⟩] (some "2026-07-05")
        (fun _ => 172800000) 0 = some ⟨8, jsRound 4, jsRound 16, 2⟩ := by
      norm_num [SalesUtils.computeForecast, jsFalsyStr, Int.ceil_ofNat]
      exact fun hcontra => absurd hcontra (by decide)
    exact c6_forecast_null_guard.2.2 _ _ _ _ _ hsome

/-! ## Result totals (claim C8) -/

/-- Sum of a pointwise-added map splits. -/
theorem sum_map_add {α : Type} (f g : α → ℚ) (l : List α) :
    (l.map fun a => f a + g a).sum = (l.map f).sum + (l.map g).sum := by
  induction l with
  | nil => simp
  | cons a l ih =>
    simp only [List.map_cons, List.sum_cons, ih]
    ring

/-- Summing a mapped value over the two halves of a Boolean partition gives
the whole sum. -/
theorem sum_map_filter_split {α : Type} (p : α → Bool) (f : α → ℚ) (l : List α) :
    ((l.filter p).map f).sum + ((l.filter fun a => !p a).map f).sum = (l.map f).sum := by
  induction l with
  | nil => simp
  | cons a l ih =>
    by_cases hp : p a = true
    · simp only [List.filter_cons, hp, Bool.not_true, Bool.false_eq_true, if_false, if_true,
        List.map_cons, List.sum_cons]
      rw [← ih]
      ring
    · have hp2 : p a = false := Bool.not_eq_true _ |>.mp hp
      simp only [List.filter_cons, hp2, Bool.not_false, Bool.false_eq_true, if_false, if_true,
        List.map_cons, List.sum_cons]
      rw [← ih]
      ring

/-- Income row with a VAT-inclusive total of 1000 (800 + 200 VAT, actual). -/
def inc800 : Income :=
  { category := "Billettinntekter", description := none, amount_ex_vat := some 800,
    vat_rate := some (1/4), vat_amount := some 200, source := none,
    is_budget := false, date := some "2026-07-01" }

/-- Expense row with a VAT-inclusive total of 600 (500 + 100 VAT, actual). -/
def exp500 : Expense :=
  { category := "Scene", description := none, amount_ex_vat := some 500,
    vat_rate := some (1/5), vat_amount := some 100, supplier := none,
    is_budget := false, date := some "2026-07-02" }

/-- C8: in both summary exports the RESULTAT line is total income minus total
expenses.  In the accounting summary CSV the VAT-inclusive RESULTAT value
equals the VAT-inclusive sum over all sales plus actual income minus actual
expenses (with the null-VAT fallback), and in the annual-report PDF the
RESULTAT amount is `totalInc - totalExp`; with income totalling 1000 and
expenses totalling 600, both compute 400. -/
theorem c8_result_totals :
    (∀ (sales : List TicketSale) (income : List Income) (expenses : List Expense),
        (UseTicketSales.summaryTotals sales income expenses).resultatIncVat
          = ((UseTicketSales.summaryTotals sales income expenses).totalIncExVat
              + (UseTicketSales.summaryTotals sales income expenses).totalIncVat)
            - ((UseTicketSales.summaryTotals sales income expenses).expExVat
              + (UseTicketSales.summaryTotals sales income expenses).expVat))
      ∧ (∀ (sales : List TicketSale) (income : List Income) (expenses : List Expense),
        (UseTicketSales.summaryTotals sales income expenses).resultatIncVat
          = ((sales.map fun s => (s.price_ex_vat.getD 0) * s.quantity
                + (s.vat_amount.getD 0) * s.quantity).sum
              + ((income.filter fun i => !i.is_budget).map
                  fun i => (i.amount_ex_vat.getD 0) + UseTicketSales.econIncomeVat i).sum)
            - ((expenses.filter fun e => !e.is_budget).map
                fun e => (e.amount_ex_vat.getD 0) + UseTicketSales.econExpenseVat e).sum)
      ∧ (∀ (income : List Income) (expenses : List Expense),
        ReportPdf.resultat income expenses = ReportPdf.totalInc income - ReportPdf.totalExp expenses)
      ∧ (UseTicketSales.summaryTotals [] [inc800] [exp500]).totalIncExVat
          + (UseTicketSales.summaryTotals [] [inc800] [exp500]).totalIncVat = 1000
      ∧ (UseTicketSales.summaryTotals [] [inc800] [exp500]).expExVat
          + (UseTicketSales.summaryTotals [] [inc800] [exp500]).expVat = 600
      ∧ (UseTicketSales.summaryTotals [] [inc800] [exp500]).resultatIncVat = 400
      ∧ ReportPdf.totalInc [inc800] = 1000
      ∧ ReportPdf.totalExp [exp500] = 600
      ∧ ReportPdf.resultat [inc800] [exp500] = 400 := by
  refine ⟨?_, ?_, ?_, ?_, ?_, ?_, ?_, ?_, ?_⟩
  · intro sales income expenses
    rfl
  · intro sales income expenses
    have hsplitEx := sum_map_filter_split (fun s => s.category == "fb")
      (fun s => (s.price_ex_vat.getD 0) * s.quantity) sales
    have hsplitVat := sum_map_filter_split (fun s => s.category == "fb")
      (fun s => (s.vat_amount.getD 0) * s.quantity) sales
    have hsales := sum_map_add (fun s : TicketSale => (s.price_ex_vat.getD 0) * s.quantity)
      (fun s => (s.vat_amount.getD 0) * s.quantity) sales
    have hinc := sum_map_add (fun i : Income => i.amount_ex_vat.getD 0)
      UseTicketSales.econIncomeVat (income.filter fun i => !i.is_budget)
    have hexp := sum_map_add (fun e : Expense => e.amount_ex_vat.getD 0)
      UseTicketSales.econExpenseVat (expenses.filter fun e => !e.is_budget)
    simp only [UseTicketSales.summaryTotals]
    rw [hsales, hinc, hexp, ← hsplitEx, ← hsplitVat]
    ring
  · intro income expenses
    rfl
  · norm_num [UseTicketSales.summaryTotals, UseTicketSales.econIncomeVat, inc800]
  · norm_num [UseTicketSales.summaryTotals, UseTicketSales.econExpenseVat, exp500]
  · norm_num [UseTicketSales.summaryTotals, UseTicketSales.econIncomeVat,
      UseTicketSales.econExpenseVat, inc800, exp500]
  · norm_num [ReportPdf.totalInc, ReportPdf.incomeIncVat, inc800]
  · norm_num [ReportPdf.totalExp, ReportPdf.expenseIncVat, exp500]
  · norm_num [ReportPdf.resultat, ReportPdf.totalInc, ReportPdf.totalExp,
      ReportPdf.incomeIncVat, ReportPdf.expenseIncVat, inc800, exp500]

/-! ## Sync line transform (claim C7) -/

/-- Order line titled "Ølbillett", categorised "Mat/drikke". -/
def lineMat : TicketcoSync.OrderLine :=
  { id := 1, title := "Ølbillett", quantity := 1, price := 100, vat_amount := 20,
    vat_rate := 25, category := some "Mat/drikke" }

/-- Order line titled "Dagspass" with no category. -/
def lineDag : TicketcoSync.OrderLine :=
  { id := 2, title := "Dagspass", quantity := 2, price := 500, vat_amount := 60,
    vat_rate := 12, category := none }

/-- Order carrying the two scenario lines. -/
def orderEx : TicketcoSync.Order :=
  { id := 10, created_at := "2026-07-01T10:00:00Z", order_lines := [lineMat, lineDag],
    source := none }

/-- C7: a synced order line is classified `fb` exactly when its category text
case-insensitively contains one of "food", "mat", "drikke", "beverage" (an
absent category gives `ticket`); `price_ex_vat` is the gross price minus the
VAT amount; the provider's whole-number percentage rate is stored divided by
100.  On the scenario order, "Mat/drikke" is classified `fb` and the
uncategorised line `ticket`. -/
theorem c7_line_classification :
    (∀ (fid now : String) (o : TicketcoSync.Order) (line : TicketcoSync.OrderLine),
        ((TicketcoSync.toSalesRow fid now o line).category = "fb"
            ↔ ∃ needle ∈ (["food", "mat", "drikke", "beverage"] : List String),
                jsIncludes (jsToLower (line.category.getD "")) needle = true)
          ∧ (line.category = none → (TicketcoSync.toSalesRow fid now o line).category = "ticket")
          ∧ (TicketcoSync.toSalesRow fid now o line).price_ex_vat
              = some (line.price - line.vat_amount)
          ∧ (TicketcoSync.toSalesRow fid now o line).vat_rate = some (line.vat_rate / 100))
      ∧ (TicketcoSync.toSalesRow "f1" "t0" orderEx lineMat).category = "fb"
      ∧ (TicketcoSync.toSalesRow "f1" "t0" orderEx lineDag).category = "ticket" := by
  refine ⟨?_, by decide, by decide⟩
  intro fid now o line
  have hcat : (TicketcoSync.toSalesRow fid now o line).category
      = if TicketcoSync.isFood line then "fb" else "ticket" := rfl
  refine ⟨?_, ?_, rfl, rfl⟩
  · rw [hcat]
    by_cases hF : TicketcoSync.isFood line = true
    · rw [if_pos hF]
      simp only [TicketcoSync.isFood, Bool.or_eq_true] at hF
      constructor
      · intro _
        rcases hF with ((h | h) | h) | h
        · exact ⟨"food", by simp, h⟩
        · exact ⟨"mat", by simp, h⟩
        · exact ⟨"drikke", by simp, h⟩
        · exact ⟨"beverage", by simp, h⟩
      · intro _
        rfl
    · rw [if_neg hF]
      constructor
      · intro h
        exact absurd h (by decide)
      · rintro ⟨needle, hmem, hinc⟩
        exfalso
        apply hF
        simp only [TicketcoSync.isFood, Bool.or_eq_true]
        simp only [List.mem_cons, List.mem_singleton, List.not_mem_nil, or_false] at hmem
        rcases hmem with rfl | rfl | rfl | rfl
        · exact Or.inl (Or.inl (Or.inl hinc))
        · exact Or.inl (Or.inl (Or.inr hinc))
        · exact Or.inl (Or.inr hinc)
        · exact Or.inr hinc
  · intro h
    rw [hcat, if_neg]
    simp only [TicketcoSync.isFood, h]
    decide

/-- Witness for C7: the absent-category implication applied to the concrete
uncategorised line. -/
theorem c7_line_classification_witness :
    (TicketcoSync.toSalesRow "f9" "t9" orderEx lineDag).category = "ticket" :=
  (c7_line_classification.1 "f9" "t9" orderEx lineDag).2.1 rfl

/-! ## Derived facts about the upsert (claim C3) -/

namespace TicketcoSync

/-- Batching is immaterial: upserting two batches in sequence is upserting
their concatenation. -/
theorem upsertRows_append (store : List TicketSale) (b1 b2 : List TicketSale) :
    upsertRows store (b1 ++ b2) = upsertRows (upsertRows store b1) b2 :=
  List.foldl_append upsertOne store b1 b2

/-- The conflict test of one upsert, as a key-membership statement. -/
theorem anyTid_iff (store : List TicketSale) (k : String) :
    (store.any fun x => x.ticketco_id == k) = true
      ↔ k ∈ store.map TicketSale.ticketco_id := by
  rw [List.any_eq_true]
  constructor
  · rintro ⟨x, hx, hk⟩
    exact (eq_of_beq hk) ▸ List.mem_map_of_mem TicketSale.ticketco_id hx
  · intro hk
    obtain ⟨x, hx, hk2⟩ := List.mem_map.mp hk
    exact ⟨x, hx, by rw [hk2, beq_self_eq_true]⟩

/-- The external ids present after one upsert. -/
theorem tids_upsertOne (store : List TicketSale) (r : TicketSale) :
    (upsertOne store r).map TicketSale.ticketco_id
      = if (store.any fun x => x.ticketco_id == r.ticketco_id) = true then
          store.map TicketSale.ticketco_id
        else store.map TicketSale.ticketco_id ++ [r.ticketco_id] := by
  by_cases h : (store.any fun x => x.ticketco_id == r.ticketco_id) = true
  · rw [if_pos h]
    simp only [upsertOne, h, if_true]
    rw [List.map_map]
    refine List.map_congr_left ?_
    intro x _
    by_cases hx : (x.ticketco_id == r.ticketco_id) = true
    · simp only [Function.comp, hx, if_true]
      exact (eq_of_beq hx).symm
    · simp only [Function.comp, hx, Bool.false_eq_true, if_false]
  · rw [if_neg h]
    simp only [upsertOne, h, Bool.false_eq_true, if_false, List.map_append,
      List.map_singleton]

/-- One upsert changes the row count only when the external id is new. -/
theorem length_upsertOne (store : List TicketSale) (r : TicketSale) :
    (upsertOne store r).length
      = if (store.any fun x => x.ticketco_id == r.ticketco_id) = true then store.length
        else store.length + 1 := by
  by_cases h : (store.any fun x => x.ticketco_id == r.ticketco_id) = true
  · simp [upsertOne, h]
  · simp [upsertOne, h]

/-- An id already stored survives an upsert. -/
theorem mem_tids_upsertOne_mono (store : List TicketSale) (r : TicketSale) (k : String)
    (hk : k ∈ store.map TicketSale.ticketco_id) :
    k ∈ (upsertOne store r).map TicketSale.ticketco_id := by
  rw [tids_upsertOne]
  by_cases h : (store.any fun x => x.ticketco_id == r.ticketco_id) = true
  · rw [if_pos h]; exact hk
  · rw [if_neg h]; exact List.mem_append_left _ hk

/-- The id of an upserted row is present afterwards. -/
theorem mem_tids_upsertOne_self (store : List TicketSale) (r : TicketSale) :
    r.ticketco_id ∈ (upsertOne store r).map TicketSale.ticketco_id := by
  rw [tids_upsertOne]
  by_cases h : (store.any fun x => x.ticketco_id == r.ticketco_id) = true
  · rw [if_pos h]; exact (anyTid_iff store r.ticketco_id).mp h
  · rw [if_neg h]; exact List.mem_append_right _ (List.mem_singleton.mpr rfl)

/-- An id already stored survives a whole batch of upserts. -/
theorem mem_tids_upsertRows_mono (rows : List TicketSale) :
    ∀ (store : List TicketSale) (k : String), k ∈ store.map TicketSale.ticketco_id →
      k ∈ (upsertRows store rows).map TicketSale.ticketco_id := by
  induction rows with
  | nil => intro store k hk; exact hk
  | cons r rows ih =>
    intro store k hk
    exact ih (upsertOne store r) k (mem_tids_upsertOne_mono store r k hk)

/-- Every id of an upserted batch is present afterwards. -/
theorem mem_tids_upsertRows_of_mem (rows : List TicketSale) :
    ∀ (store : List TicketSale) (r : TicketSale), r ∈ rows →
      r.ticketco_id ∈ (upsertRows store rows).map TicketSale.ticketco_id := by
  induction rows with
  | nil => intro store r hr; cases hr
  | cons a rows ih =>
    intro store r hr
    rcases List.mem_cons.mp hr with rfl | hr2
    · exact mem_tids_upsertRows_mono rows (upsertOne store r) r.ticketco_id
        (mem_tids_upsertOne_self store r)
    · exact ih (upsertOne store a) r hr2

/-- Upserting rows whose ids are all already present changes neither the row
count nor the id list. -/
theorem upsertRows_of_subset (rows : List TicketSale) :
    ∀ store : List TicketSale,
      (∀ r ∈ rows, r.ticketco_id ∈ store.map TicketSale.ticketco_id) →
      (upsertRows store rows).length = store.length
        ∧ (upsertRows store rows).map TicketSale.ticketco_id
            = store.map TicketSale.ticketco_id := by
  induction rows with
  | nil => intro store _; exact ⟨rfl, rfl⟩
  | cons r rows ih =>
    intro store hsub
    have hany : (store.any fun x => x.ticketco_id == r.ticketco_id) = true :=
      (anyTid_iff store r.ticketco_id).mpr (hsub r (List.mem_cons_self r rows))
    have hlen : (upsertOne store r).length = store.length := by
      rw [length_upsertOne, if_pos hany]
    have htids : (upsertOne store r).map TicketSale.ticketco_id
        = store.map TicketSale.ticketco_id := by
      rw [tids_upsertOne, if_pos hany]
    have hsub2 : ∀ x ∈ rows, x.ticketco_id ∈ (upsertOne store r).map TicketSale.ticketco_id := by
      intro x hx
      rw [htids]
      exact hsub x (List.mem_cons_of_mem r hx)
    obtain ⟨h1, h2⟩ := ih (upsertOne store r) hsub2
    exact ⟨h1.trans hlen, h2.trans htids⟩

/-- Upserting never introduces a duplicate external id. -/
theorem nodup_tids_upsertOne (store : List TicketSale) (r : TicketSale)
    (h : (store.map TicketSale.ticketco_id).Nodup) :
    ((upsertOne store r).map TicketSale.ticketco_id).Nodup := by
  rw [tids_upsertOne]
  by_cases hany : (store.any fun x => x.ticketco_id == r.ticketco_id) = true
  · rw [if_pos hany]; exact h
  · rw [if_neg hany, List.nodup_append]
    refine ⟨h, List.nodup_singleton _, ?_⟩
    intro k hk hk1
    simp only [List.mem_singleton] at hk1
    rcases hk1 with rfl
    exact hany ((anyTid_iff store _).mpr hk)

/-- Upserting a batch never introduces a duplicate external id. -/
theorem nodup_tids_upsertRows (rows : List TicketSale) :
    ∀ store : List TicketSale, (store.map TicketSale.ticketco_id).Nodup →
      ((upsertRows store rows).map TicketSale.ticketco_id).Nodup := by
  induction rows with
  | nil => intro store h; exact h
  | cons r rows ih =>
    intro store h
    exact ih (upsertOne store r) (nodup_tids_upsertOne store r h)

/-- After upserting `r`, looking its id up yields exactly `r`. -/
theorem lookupRow_upsertOne_self (store : List TicketSale) (r : TicketSale) :
    lookupRow (upsertOne store r) r.ticketco_id = some r := by
  by_cases hany : (store.any fun x => x.ticketco_id == r.ticketco_id) = true
  · rw [lookupRow, upsertOne, if_pos hany]
    have hfmap := find?_map_pres (fun x => x.ticketco_id == r.ticketco_id)
      (fun x => if x.ticketco_id == r.ticketco_id then r else x) ?hpres store
    case hpres =>
      intro x
      by_cases hx : (x.ticketco_id == r.ticketco_id) = true
      · simp only [hx, if_true, beq_self_eq_true]
      · simp only [hx, Bool.false_eq_true, if_false]
    rw [hfmap]
    obtain ⟨x, hx, hpx⟩ := List.any_eq_true.mp hany
    obtain ⟨x0, hfind⟩ : ∃ x0, store.find? (fun x => x.ticketco_id == r.ticketco_id) = some x0 := by
      cases hfind : store.find? (fun x => x.ticketco_id == r.ticketco_id) with
      | none =>
        rw [List.find?_eq_none] at hfind
        exact absurd hpx (hfind x hx)
      | some x0 => exact ⟨x0, rfl⟩
    have hpx0 := List.find?_some hfind
    rw [hfind]
    exact congrArg some (if_pos hpx0)
  · rw [lookupRow, upsertOne, if_neg hany, List.find?_append]
    have hnone : store.find? (fun x => x.ticketco_id == r.ticketco_id) = none := by
      rw [List.find?_eq_none]
      intro x hx hpx
      exact hany (List.any_eq_true.mpr ⟨x, hx, hpx⟩)
    rw [hnone, Option.none_or]
    exact List.find?_cons_of_pos _ (beq_self_eq_true _)

end TicketcoSync

/-- C3: re-running the sync's upsert phase on the rows produced from the same
provider response set (even at a different sync timestamp) leaves storage with
exactly the row count of a single run; rows are keyed by the composite
external id `order_id-line_id`; the store never acquires duplicate ids; the
last upsert of an id wins; and chunked upserting equals one sequential pass. -/
theorem c3_idempotent_sync :
    (∀ (store : List TicketSale) (fid t1 t2 : String) (orders : List TicketcoSync.Order),
        (TicketcoSync.upsertRows
            (TicketcoSync.upsertRows store (TicketcoSync.salesRows fid t1 orders))
            (TicketcoSync.salesRows fid t2 orders)).length
          = (TicketcoSync.upsertRows store (TicketcoSync.salesRows fid t1 orders)).length)
      ∧ (∀ (store rows : List TicketSale) (r : TicketSale),
          TicketcoSync.lookupRow (TicketcoSync.upsertRows store (rows ++ [r])) r.ticketco_id
            = some r)
      ∧ (∀ (store rows : List TicketSale),
          (store.map TicketSale.ticketco_id).Nodup →
            ((TicketcoSync.upsertRows store rows).map TicketSale.ticketco_id).Nodup)
      ∧ (∀ (fid t : String) (o : TicketcoSync.Order) (l : TicketcoSync.OrderLine),
          (TicketcoSync.toSalesRow fid t o l).ticketco_id
            = toString o.id ++ "-" ++ toString l.id)
      ∧ (∀ (store b1 b2 : List TicketSale),
          TicketcoSync.upsertRows store (b1 ++ b2)
            = TicketcoSync.upsertRows (TicketcoSync.upsertRows store b1) b2) := by
  refine ⟨?_, ?_, ?_, fun _ _ _ _ => rfl, TicketcoSync.upsertRows_append⟩
  · intro store fid t1 t2 orders
    refine (TicketcoSync.upsertRows_of_subset (TicketcoSync.salesRows fid t2 orders)
      (TicketcoSync.upsertRows store (TicketcoSync.salesRows fid t1 orders)) ?_).1
    intro r hr
    have h2 : r.ticketco_id ∈ (TicketcoSync.salesRows fid t2 orders).map
        TicketSale.ticketco_id := List.mem_map_of_mem TicketSale.ticketco_id hr
    have hkeys : (TicketcoSync.salesRows fid t2 orders).map TicketSale.ticketco_id
        = (TicketcoSync.salesRows fid t1 orders).map TicketSale.ticketco_id := by
      simp only [TicketcoSync.salesRows, List.map_flatMap, List.map_map]
      exact congrArg _ (funext fun a => List.map_congr_left fun l _ => rfl)
    rw [hkeys] at h2
    obtain ⟨r1, hr1, htid⟩ := List.mem_map.mp h2
    have := TicketcoSync.mem_tids_upsertRows_of_mem
      (TicketcoSync.salesRows fid t1 orders) store r1 hr1
    rw [htid] at this
    exact this
  · intro store rows r
    rw [TicketcoSync.upsertRows_append]
    exact TicketcoSync.lookupRow_upsertOne_self _ r
  · intro store rows h
    exact TicketcoSync.nodup_tids_upsertRows rows store h

/-- Witness for C3: the duplicate-freedom conjunct applied to an initially
empty store and a concrete two-row batch with a repeated id. -/
theorem c3_idempotent_sync_witness :
    ((TicketcoSync.upsertRows [] [saleRow80, saleRow80]).map
      TicketSale.ticketco_id).Nodup :=
  c3_idempotent_sync.2.2.1 [] [saleRow80, saleRow80] List.nodup_nil

/-! ## Derived facts about the multi-tenant sweep (claim C4) -/

namespace TicketcoSync

/-- The log list accumulated by the sweep factors through the starting log
list: logs are only ever appended. -/
theorem foldl_syncStep_logs (now : String) :
    ∀ (ts : List Tenant) (store : List TicketSale) (logs : List LogEntry),
      ts.foldl (syncStep now) (store, logs)
        = ((ts.foldl (syncStep now) (store, [])).1,
           logs ++ (ts.foldl (syncStep now) (store, [])).2) := by
  intro ts
  induction ts with
  | nil => intro store logs; simp
  | cons t ts ih =>
    intro store logs
    have hfst : (syncStep now (store, logs) t).1 = (syncStep now (store, []) t).1 := by
      cases heq : fetchOrders t.pages <;> simp [syncStep, heq]
    have hsnd : (syncStep now (store, logs) t).2
        = logs ++ (syncStep now (store, []) t).2 := by
      cases heq : fetchOrders t.pages <;> simp [syncStep, heq]
    have e1 := ih (syncStep now (store, logs) t).1 (syncStep now (store, logs) t).2
    have e2 := ih (syncStep now (store, []) t).1 (syncStep now (store, []) t).2
    rw [List.foldl_cons, List.foldl_cons]
    rw [show syncStep now (store, logs) t
          = ((syncStep now (store, logs) t).1, (syncStep now (store, logs) t).2) from rfl,
      e1, hfst, hsnd]
    rw [show syncStep now (store, ([] : List LogEntry)) t
          = ((syncStep now (store, []) t).1, (syncStep now (store, []) t).2) from rfl,
      e2]
    simp [List.append_assoc]

/-- Unfolding the sweep at a cons: the head tenant's step happens first, then
the rest run from the updated store; the head's log entry is first. -/
theorem runSync_cons (now : String) (store : List TicketSale) (t : Tenant) (ts : List Tenant) :
    runSync now store (t :: ts)
      = ((runSync now (syncStep now (store, []) t).1 ts).1,
         (syncStep now (store, []) t).2
           ++ (runSync now (syncStep now (store, []) t).1 ts).2) := by
  rw [runSync, List.foldl_cons]
  exact foldl_syncStep_logs now ts (syncStep now (store, []) t).1 (syncStep now (store, []) t).2

/-- Splitting the sweep at an append. -/
theorem runSync_append (now : String) (store : List TicketSale) (ts1 ts2 : List Tenant) :
    runSync now store (ts1 ++ ts2)
      = ((runSync now (runSync now store ts1).1 ts2).1,
         (runSync now store ts1).2 ++ (runSync now (runSync now store ts1).1 ts2).2) := by
  rw [runSync, List.foldl_append]
  exact foldl_syncStep_logs now ts2 (runSync now store ts1).1 (runSync now store ts1).2

/-- The sweep of a failing tenant alone: storage untouched, one error entry
with the captured message. -/
theorem runSync_error_singleton (now : String) (store : List TicketSale) (t : Tenant)
    (m : String) (heq : fetchOrders t.pages = .error m) :
    runSync now store [t]
      = (store, [⟨t.festival_id, 0, .failed, some m⟩]) := by
  rw [runSync, List.foldl_cons]
  simp [syncStep, heq]

/-- The sweep of a succeeding tenant alone: rows upserted, one success entry
carrying the row count. -/
theorem runSync_ok_singleton (now : String) (store : List TicketSale) (t : Tenant)
    (orders : List Order) (heq : fetchOrders t.pages = .ok orders) :
    runSync now store [t]
      = (upsertRows store (salesRows t.festival_id now orders),
         [⟨t.festival_id, (salesRows t.festival_id now orders).length, .success, none⟩]) := by
  rw [runSync, List.foldl_cons]
  simp [syncStep, heq]

end TicketcoSync

/-- C4: every processed tenant yields exactly one sync-log entry, in tenant
order; a tenant whose provider fetch fails contributes an `error` entry
carrying the captured message, leaves storage untouched by its own run, and
the remaining tenants are still processed exactly as if the failing tenant
were absent; a tenant whose fetch succeeds contributes a `success` entry with
the count of rows synced. -/
theorem c4_tenant_error_isolation :
    (∀ (now : String) (store : List TicketSale) (ts : List TicketcoSync.Tenant),
        (TicketcoSync.runSync now store ts).2.length = ts.length)
      ∧ (∀ (now : String) (store : List TicketSale) (ts : List TicketcoSync.Tenant),
        (TicketcoSync.runSync now store ts).2.map TicketcoSync.LogEntry.festival_id
          = ts.map TicketcoSync.Tenant.festival_id)
      ∧ (∀ (now : String) (store : List TicketSale) (ts1 ts2 : List TicketcoSync.Tenant)
          (t : TicketcoSync.Tenant) (m : String),
        TicketcoSync.fetchOrders t.pages = .error m →
          TicketcoSync.runSync now store (ts1 ++ t :: ts2)
            = ((TicketcoSync.runSync now store (ts1 ++ ts2)).1,
               (TicketcoSync.runSync now store ts1).2
                 ++ ⟨t.festival_id, 0, .failed, some m⟩
                   :: (TicketcoSync.runSync now
                       (TicketcoSync.runSync now store ts1).1 ts2).2))
      ∧ (∀ (now : String) (store : List TicketSale) (t : TicketcoSync.Tenant)
          (orders : List TicketcoSync.Order),
        TicketcoSync.fetchOrders t.pages = .ok orders →
          (TicketcoSync.runSync now store [t]).2
            = [⟨t.festival_id, (TicketcoSync.salesRows t.festival_id now orders).length,
                .success, none⟩]) := by
  refine ⟨?_, ?_, ?_, ?_⟩
  · intro now store ts
    induction ts generalizing store with
    | nil => rfl
    | cons t ts ih =>
      rw [TicketcoSync.runSync_cons, List.length_append]
      have h1 : (TicketcoSync.syncStep now (store, []) t).2.length = 1 := by
        cases heq : TicketcoSync.fetchOrders t.pages with
        | error m => simp [TicketcoSync.syncStep, heq]
        | ok orders => simp [TicketcoSync.syncStep, heq]
      rw [h1, ih]
      exact Nat.add_comm 1 ts.length
  · intro now store ts
    induction ts generalizing store with
    | nil => rfl
    | cons t ts ih =>
      rw [TicketcoSync.runSync_cons, List.map_append]
      have h1 : (TicketcoSync.syncStep now (store, []) t).2.map
          TicketcoSync.LogEntry.festival_id = [t.festival_id] := by
        cases heq : TicketcoSync.fetchOrders t.pages with
        | error m => simp [TicketcoSync.syncStep, heq]
        | ok orders => simp [TicketcoSync.syncStep, heq]
      rw [h1, ih, List.map_cons]
      rfl
  · intro now store ts1 ts2 t m heq
    have hsplit1 := TicketcoSync.runSync_append now store ts1 (t :: ts2)
    have hmid := TicketcoSync.runSync_cons now (TicketcoSync.runSync now store ts1).1 t ts2
    have hstep : TicketcoSync.syncStep now ((TicketcoSync.runSync now store ts1).1, []) t
        = ((TicketcoSync.runSync now store ts1).1,
           [⟨t.festival_id, 0, .failed, some m⟩]) := by
      simp [TicketcoSync.syncStep, heq]
    have hsplit2 := TicketcoSync.runSync_append now store ts1 ts2
    rw [hsplit1, hmid, hstep, hsplit2]
    simp
  · intro now store t orders heq
    rw [TicketcoSync.runSync_ok_singleton now store t orders heq]

/-- Witness for C4: the error-isolation conjunct applied to a concrete
two-tenant run where the first tenant's fetch fails with a 503 message and
the second succeeds. -/
theorem c4_tenant_error_isolation_witness :
    TicketcoSync.runSync "t0" []
        [⟨"fest-bad", [.fail "TicketCo API error: 503 Service Unavailable"]⟩,
         ⟨"fest-good", []⟩]
      = ((TicketcoSync.runSync "t0" [] [⟨"fest-good", []⟩]).1,
         (TicketcoSync.runSync "t0" [] []).2
           ++ ⟨"fest-bad", 0, .failed, some "TicketCo API error: 503 Service Unavailable"⟩
             :: (TicketcoSync.runSync "t0" (TicketcoSync.runSync "t0" [] []).1
                 [⟨"fest-good", []⟩]).2) :=
  c4_tenant_error_isolation.2.2.1 "t0" [] [] [⟨"fest-good", []⟩]
    ⟨"fest-bad", [.fail "TicketCo API error: 503 Service Unavailable"]⟩
    "TicketCo API error: 503 Service Unavailable" rfl

end Festivalportalen
